import Mathlib

/-!
Verification development for the Interceptra APK patching pipeline.

Shallow embedding of `src/interceptra_core.py` (class `Interceptra`) and
`src/interceptra.py` (the CLI entry point).  The external world — the file
system and the five external command-line tools (apktool, jarsigner,
apksigner, zipalign, plus the dependency probes) — is modelled as an oracle
(`World`): an initial file-system snapshot, a stream of outcomes for the
external commands launched by `_run_command` (exit code plus the file system
the tool leaves behind), and success oracles for `shutil.rmtree` and
`os.remove`.  Each Python method becomes a Lean function threading an
explicit `RunState`; Python exceptions become the error side of `Except`,
carrying the state at the raise site so that the event trace at the moment
of failure is available.  `os.path` string manipulation is modelled
character-for-character after CPython's `posixpath`.
-/

namespace Interceptra

/-! ### POSIX path model: os.path.basename / dirname / splitext / join -/

def notSlash (ch : Char) : Bool := ch != '/'

def isSlash (ch : Char) : Bool := ch == '/'

def notDot (ch : Char) : Bool := ch != '.'

/-- Characters of the path after the last `/` (posixpath.basename). -/
def basenameL (cs : List Char) : List Char := (cs.reverse.takeWhile notSlash).reverse

/-- Characters of the path up to and including the last `/` (the `head`
of `posixpath.split` before its trailing-slash stripping). -/
def headPartL (cs : List Char) : List Char := (cs.reverse.dropWhile notSlash).reverse

/-- Strip trailing `/` characters. -/
def stripTrailDL (cs : List Char) : List Char := (cs.reverse.dropWhile isSlash).reverse

/-- posixpath.dirname: head of the split; trailing slashes stripped unless the
head consists only of slashes. -/
def dirnameL (cs : List Char) : List Char :=
  if headPartL cs ≠ [] ∧ (headPartL cs).any notSlash = true then stripTrailDL (headPartL cs)
  else headPartL cs

/-- posixpath.splitext, root component: split at the last dot of the basename,
unless every character of the basename before that dot is itself a dot
(leading-dot files such as `.bashrc` are not split). -/
def splitextRootL (cs : List Char) : List Char :=
  let revBase := (basenameL cs).reverse
  let extRev := revBase.takeWhile notDot
  match revBase.dropWhile notDot with
  | [] => cs
  | _ :: preRev =>
    if preRev.any notDot = true then cs.take (cs.length - (extRev.length + 1)) else cs

/-- posixpath.join for two components: an absolute second component wins;
otherwise insert a separator unless the first component is empty or already
ends in one. -/
def joinL (d f : List Char) : List Char :=
  if f.head? = some '/' then f
  else if d = [] ∨ d.getLast? = some '/' then d ++ f
  else d ++ '/' :: f

def basename (s : String) : String := String.mk (basenameL s.data)

def dirname (s : String) : String := String.mk (dirnameL s.data)

def splitextRoot (s : String) : String := String.mk (splitextRootL s.data)

def joinPath (d f : String) : String := String.mk (joinL d.data f.data)

/-! ### Python `int()` on strings (ASCII model)

`int(s)` strips leading and trailing whitespace, accepts one optional sign,
then a nonempty digit run in which single underscores may separate digits.
On anything else it raises `ValueError` (here: `none`). -/

def isPySpace (ch : Char) : Bool :=
  ch == ' ' || ch == '\t' || ch == '\n' || ch == '\r' || ch == '\x0b' || ch == '\x0c'

def digitVal (ch : Char) : Nat := ch.toNat - 48

def pyDigitsCore : Nat → List Char → Option Nat
  | acc, [] => some acc
  | acc, '_' :: rest =>
    match rest with
    | [] => none
    | ch :: rest2 => if ch.isDigit then pyDigitsCore (acc * 10 + digitVal ch) rest2 else none
  | acc, ch :: rest => if ch.isDigit then pyDigitsCore (acc * 10 + digitVal ch) rest else none

def pyDigits : List Char → Option Nat
  | [] => none
  | ch :: rest => if ch.isDigit then pyDigitsCore (digitVal ch) rest else none

def pyInt (s : String) : Option Int :=
  let cs := ((s.data.dropWhile isPySpace).reverse.dropWhile isPySpace).reverse
  match cs with
  | '+' :: rest => (pyDigits rest).map (fun n => (n : Int))
  | '-' :: rest => (pyDigits rest).map (fun n => -(n : Int))
  | rest => (pyDigits rest).map (fun n => (n : Int))

/-! ### Manifest model

`AndroidManifest.xml` as seen through `xml.etree.ElementTree`: either the
parse raises (missing file is folded in separately by `parsedManifest`), or
we get the root element's attribute dictionary together with the attribute
dictionary of its `application` child (`none` when `root.find("application")`
finds no such element).  Only these parts of the document are ever read or
written by the program. -/

inductive XmlDoc where
  | parseError
  | doc (rootAttrs : List (String × String)) (app : Option (List (String × String)))
deriving DecidableEq

/-- Attribute lookup in an ElementTree attribute dictionary. -/
def lookupAttr (attrs : List (String × String)) (k : String) : Option String :=
  (attrs.find? (fun kv => kv.1 == k)).map (fun kv => kv.2)

/-- `element.set(k, v)`: replace the value under `k`, or append the pair. -/
def setAttr (attrs : List (String × String)) (k v : String) : List (String × String) :=
  if attrs.any (fun kv => kv.1 == k) then
    attrs.map (fun kv => if kv.1 == k then (k, v) else kv)
  else attrs ++ [(k, v)]

/-- The Clark-serialized key `{android namespace}compileSdkVersion` used at
line 385 of interceptra_core.py. -/
def compileSdkAttr : String :=
  "\x7bhttp://schemas.android.com/apk/res/android\x7dcompileSdkVersion"

/-- The Clark-serialized key `{android namespace}networkSecurityConfig` set
on the `application` element at lines 359-362. -/
def nscAttr : String :=
  "\x7bhttp://schemas.android.com/apk/res/android\x7dnetworkSecurityConfig"

/-! ### File-system model -/

/-- A snapshot of the file system, as far as the program observes it:
which paths are regular files, which are directories, and the parse of
the extraction directory's `AndroidManifest.xml` (meaningful only while
that file exists). -/
structure FS where
  isFile : String → Bool
  isDir : String → Bool
  manifest : XmlDoc

/-- `os.path.exists`. -/
def FS.pathExists (fs : FS) (p : String) : Bool := fs.isFile p || fs.isDir p

/-- Successful `shutil.rmtree d`: the directory and everything below it
is gone. -/
def FS.rmtree (fs : FS) (d : String) : FS :=
  { fs with
    isFile := fun p => fs.isFile p && !(p == d) && !((d ++ "/").data.isPrefixOf p.data)
    isDir := fun p => fs.isDir p && !(p == d) && !((d ++ "/").data.isPrefixOf p.data) }

/-- `os.makedirs d (exist_ok := True)`: `d` and all its ancestors become
directories. -/
def FS.makedirs (fs : FS) (d : String) : FS :=
  { fs with isDir := fun q => fs.isDir q || q == d || (q ++ "/").data.isPrefixOf d.data }

/-- Creating/overwriting a regular file at `p` (contents are tracked only
for the manifest, via the `manifest` field). -/
def FS.writeFileAt (fs : FS) (p : String) : FS :=
  { fs with isFile := fun q => q == p || fs.isFile q }

/-- Successful `os.remove p`. -/
def FS.removeFile (fs : FS) (p : String) : FS :=
  { fs with isFile := fun q => fs.isFile q && !(q == p) }

/-! ### The oracle world and the run state -/

/-- Outcome of launching one external command: either `subprocess.Popen`
itself raised (binary not found, ...), or the process ran to completion
with some exit code, leaving the file system in some state of the tool's
choosing. -/
inductive CmdOutcome where
  | launchFailure
  | exited (code : Int) (fsAfter : FS)

/-- The environment of one run: the file system at entry and oracles for
the outcome of the n-th external command, the n-th `shutil.rmtree` call and
the n-th `os.remove` call. -/
structure World where
  fs0 : FS
  cmds : Nat → CmdOutcome
  rmtreeOk : Nat → Bool
  removeOk : Nat → Bool

/-- Observable side effects, in chronological order. -/
inductive Event where
  | ranCommand (argv : List String) (code : Int)
  | launchFailed (argv : List String)
  | removedTree (path : String) (ok : Bool)
  | removedFile (path : String) (ok : Bool)
  | madeDirs (path : String)
  | wroteFile (path : String)
deriving DecidableEq

/-- The Python exceptions that can cross a stage boundary.  `_run_command`'s
locally defined `CommandError` is `commandError`; a `Popen` launch failure
re-raised by `_run_command` is `launchError`; the `FileNotFoundError`s raised
by `_repackage_apk` / `_zipalign_apk` when their output is missing are
`missingOutput`; `manifestMissing` / `appElementMissing` / `xmlParseFailed`
come from `_add_network_attribute_to_manifest`; `rmtreeFailed` is a failing
`shutil.rmtree` in `_decompile_apk` (not wrapped in try/except there);
`sdkUnset` is the `TypeError` that `None >= 30` would raise in `cut`. -/
inductive Err where
  | commandError (code : Int)
  | launchError
  | rmtreeFailed
  | manifestMissing
  | xmlParseFailed
  | appElementMissing
  | missingOutput (path : String)
  | sdkUnset
deriving DecidableEq

/-- Mutable per-run state: the file system, `self.compile_sdk`, how many
oracle entries of each kind have been consumed, and the event trace. -/
structure RunState where
  fs : FS
  compile_sdk : Option Int
  nCmd : Nat
  nRmtree : Nat
  nRemove : Nat
  trace : List Event

abbrev StageResult := Except (Err × RunState) RunState

def initState (w : World) : RunState :=
  { fs := w.fs0, compile_sdk := none, nCmd := 0, nRmtree := 0, nRemove := 0, trace := [] }

/-! ### Construction (`Interceptra.__init__`, lines 20-66)

The constructor normalizes the input path, derives the working paths and
stores the tool table.  `_check_dependencies` only prints warnings (every
exception it can meet is caught locally, lines 85-94), so construction has
no failure path.  `os.path.abspath(os.path.expanduser(apk))` is modelled as
the identity: we quantify over the already-absolutized path. -/

structure ToolPaths where
  apktool : String
  keystore : String
  java : String
  zipalign : String
  jarsigner : String
  apksigner : String
deriving DecidableEq

def DEFAULT_KEYSTORE : String := "debug.keystore"
def DEFAULT_KEYPASS : String := "android"
def DEFAULT_STOREPASS : String := "android"
def DEFAULT_SIGALG : String := "SHA1withRSA"
def DEFAULT_DIGESTALG : String := "SHA1"
def DEFAULT_ALIAS : String := "androiddebugkey"
def DEFAULT_APKTOOL_JAR : String := "apktool_2.11.0.jar"

def defaultToolPaths : ToolPaths :=
  { apktool := DEFAULT_APKTOOL_JAR, keystore := DEFAULT_KEYSTORE, java := "java",
    zipalign := "zipalign", jarsigner := "jarsigner", apksigner := "apksigner" }

/-- One `dict.update` entry: a recognized key replaces the corresponding
tool path, an unrecognized key is accepted but unused. -/
def applyOverride (tp : ToolPaths) (kv : String × String) : ToolPaths :=
  if kv.1 == "apktool" then { tp with apktool := kv.2 }
  else if kv.1 == "keystore" then { tp with keystore := kv.2 }
  else if kv.1 == "java" then { tp with java := kv.2 }
  else if kv.1 == "zipalign" then { tp with zipalign := kv.2 }
  else if kv.1 == "jarsigner" then { tp with jarsigner := kv.2 }
  else if kv.1 == "apksigner" then { tp with apksigner := kv.2 }
  else tp

def applyOverrides (tp : ToolPaths) (l : List (String × String)) : ToolPaths :=
  l.foldl applyOverride tp

structure Config where
  apk : String
  verbose : Bool
  keep_files : Bool
  tools : ToolPaths
deriving DecidableEq

/-- `Interceptra.__init__`.  Total: there is no input-path check and the
dependency probe swallows its own errors. -/
def interceptraInit (apk : String) (verbose : Bool)
    (tool_paths : Option (List (String × String))) (keep_files : Bool) : Config :=
  { apk := apk, verbose := verbose, keep_files := keep_files,
    tools := applyOverrides defaultToolPaths (tool_paths.getD []) }

/-! ### Derived working paths (lines 50-60) -/

def file_name (c : Config) : String := splitextRoot (basename c.apk)

def output_dir (c : Config) : String := dirname c.apk

def patched_apk (c : Config) : String :=
  joinPath (output_dir c) (file_name c ++ "_patched.apk")

def zipaligned_apk (c : Config) : String :=
  joinPath (output_dir c) (file_name c ++ "_patched_zipaligned.apk")

def extraction_dir (c : Config) : String := joinPath (dirname c.apk) (file_name c)

def manifestPath (c : Config) : String :=
  joinPath (extraction_dir c) ("AndroidManifest.xml")

/-! ### Command argument vectors -/

def decompileArgv (c : Config) : List String :=
  [c.tools.java, "-jar", c.tools.apktool, "-f", "d", c.apk, "-o", extraction_dir c]

def repackArgv (c : Config) : List String :=
  [c.tools.java, "-jar", c.tools.apktool, "-f", "b", extraction_dir c,
   "-o", patched_apk c, "--use-aapt2"]

def jarsignArgv (c : Config) : List String :=
  [c.tools.jarsigner, "-verbose", "-keystore", c.tools.keystore,
   "-keypass", DEFAULT_KEYPASS, "-storepass", DEFAULT_STOREPASS,
   "-sigalg", DEFAULT_SIGALG, "-digestalg", DEFAULT_DIGESTALG,
   patched_apk c, DEFAULT_ALIAS]

def apksignArgv (c : Config) : List String :=
  [c.tools.apksigner, "sign", "--ks", c.tools.keystore,
   "--ks-key-alias", DEFAULT_ALIAS, "--ks-pass", "pass:" ++ DEFAULT_STOREPASS,
   zipaligned_apk c]

def zipalignArgv (c : Config) : List String :=
  [c.tools.zipalign, "-p", "-f", "4", patched_apk c, zipaligned_apk c]

/-! ### `_run_command` (lines 105-219)

All five pipeline call sites use the default `check=True`, which is the
path modelled here: on a launch failure the exception is re-raised; on a
non-zero exit code the command's side effects stand and the local
`CommandError` is raised; on exit code 0 the run state (with the tool's
file system) is returned.  The streamed stdout/stderr and the progress
spinner are diagnostics with no machine contract and are not modelled. -/

def run_command (w : World) (argv : List String) (s : RunState) : StageResult :=
  match w.cmds s.nCmd with
  | CmdOutcome.launchFailure =>
    let s1 : RunState :=
      { s with nCmd := s.nCmd + 1, trace := s.trace ++ [Event.launchFailed argv] }
    Except.error (Err.launchError, s1)
  | CmdOutcome.exited code fsAfter =>
    let s1 : RunState :=
      { s with fs := fsAfter, nCmd := s.nCmd + 1,
               trace := s.trace ++ [Event.ranCommand argv code] }
    if code ≠ 0 then Except.error (Err.commandError code, s1) else Except.ok s1

/-! ### The five stages (lines 271-466) -/

/-- `_decompile_apk` (lines 292-309): clear a stale extraction directory,
then run apktool `d`.  The `shutil.rmtree` here is not inside a try/except,
so its failure aborts the stage. -/
def decompile_apk (c : Config) (w : World) (s : RunState) : StageResult :=
  if s.fs.pathExists (extraction_dir c) then
    let ok := w.rmtreeOk s.nRmtree
    let s1 : RunState :=
      { s with fs := if ok then s.fs.rmtree (extraction_dir c) else s.fs,
               nRmtree := s.nRmtree + 1,
               trace := s.trace ++ [Event.removedTree (extraction_dir c) ok] }
    if ok then run_command w (decompileArgv c) s1
    else Except.error (Err.rmtreeFailed, s1)
  else run_command w (decompileArgv c) s

/-- `_add_network_file` (lines 311-336): `os.makedirs(<extraction>/res/xml,
exist_ok=True)` then write the fixed network security config file. -/
def add_network_file (c : Config) (s : RunState) : StageResult :=
  let p := joinPath (extraction_dir c) ("res/xml")
  let fp := joinPath p ("network_security_config.xml")
  Except.ok { s with fs := (s.fs.makedirs p).writeFileAt fp,
                     trace := s.trace ++ [Event.madeDirs p, Event.wroteFile fp] }

/-- `_add_network_attribute_to_manifest` (lines 338-373): missing manifest
raises FileNotFoundError; a parse failure is re-raised; a missing
`application` element raises ValueError; otherwise the namespaced
networkSecurityConfig attribute is set and the document written back. -/
def add_network_attribute_to_manifest (c : Config) (s : RunState) : StageResult :=
  let xp := manifestPath c
  if s.fs.isFile xp = false then Except.error (Err.manifestMissing, s)
  else
    match s.fs.manifest with
    | XmlDoc.parseError => Except.error (Err.xmlParseFailed, s)
    | XmlDoc.doc rootAttrs app =>
      match app with
      | none => Except.error (Err.appElementMissing, s)
      | some appAttrs =>
        let doc1 := XmlDoc.doc rootAttrs
          (some (setAttr appAttrs nscAttr ("@xml/network_security_config")))
        Except.ok { s with fs := { s.fs.writeFileAt xp with manifest := doc1 },
                           trace := s.trace ++ [Event.wroteFile xp] }

/-- The manifest as `ElementTree.parse` sees it: parsing a missing file
raises, which the callers treat like any other parse error. -/
def parsedManifest (c : Config) (fs : FS) : XmlDoc :=
  if fs.isFile (manifestPath c) then fs.manifest else XmlDoc.parseError

/-- `_check_compile_sdk_version` (lines 375-399): the whole body sits in a
try/except, so every failure path (missing file, parse error, absent
attribute, `int()` raising) degrades to `compile_sdk = 30`; this stage
never raises. -/
def check_compile_sdk_version (c : Config) (s : RunState) : StageResult :=
  match parsedManifest c s.fs with
  | XmlDoc.parseError => Except.ok { s with compile_sdk := some 30 }
  | XmlDoc.doc rootAttrs _ =>
    match lookupAttr rootAttrs compileSdkAttr with
    | none => Except.ok { s with compile_sdk := some 30 }
    | some v =>
      match pyInt v with
      | none => Except.ok { s with compile_sdk := some 30 }
      | some n => Except.ok { s with compile_sdk := some n }

/-- `_repackage_apk` (lines 401-414): apktool `b`, then verify the patched
APK exists, raising FileNotFoundError otherwise. -/
def repackage_apk (c : Config) (w : World) (s : RunState) : StageResult :=
  match run_command w (repackArgv c) s with
  | Except.error e => Except.error e
  | Except.ok s1 =>
    if s1.fs.pathExists (patched_apk c) = false then
      Except.error (Err.missingOutput (patched_apk c), s1)
    else Except.ok s1

/-- `_jarsign_apk` (lines 416-432). -/
def jarsign_apk (c : Config) (w : World) (s : RunState) : StageResult :=
  run_command w (jarsignArgv c) s

/-- `_apksign_apk` (lines 434-446). -/
def apksign_apk (c : Config) (w : World) (s : RunState) : StageResult :=
  run_command w (apksignArgv c) s

/-- The `os.makedirs(os.path.dirname(zipaligned_apk), exist_ok=True)`
prelude of `_zipalign_apk` (line 451). -/
def zipalignPre (c : Config) (s : RunState) : RunState :=
  { s with fs := s.fs.makedirs (dirname (zipaligned_apk c)),
           trace := s.trace ++ [Event.madeDirs (dirname (zipaligned_apk c))] }

/-- `_zipalign_apk` (lines 448-466): ensure the output directory, run
zipalign, then verify the aligned APK exists. -/
def zipalign_apk (c : Config) (w : World) (s : RunState) : StageResult :=
  match run_command w (zipalignArgv c) (zipalignPre c s) with
  | Except.error e => Except.error e
  | Except.ok s1 =>
    if s1.fs.pathExists (zipaligned_apk c) = false then
      Except.error (Err.missingOutput (zipaligned_apk c), s1)
    else Except.ok s1

/-- First block of `_cleanup_files` (lines 275-282): remove the extraction
directory if it exists; a failing `shutil.rmtree` only prints a warning. -/
def cleanup_rm_extraction (c : Config) (w : World) (s : RunState) : RunState :=
  if s.fs.pathExists (extraction_dir c) then
    let ok := w.rmtreeOk s.nRmtree
    { s with fs := if ok then s.fs.rmtree (extraction_dir c) else s.fs,
             nRmtree := s.nRmtree + 1,
             trace := s.trace ++ [Event.removedTree (extraction_dir c) ok] }
  else s

/-- Second block of `_cleanup_files` (lines 284-290): remove the
intermediate APK if it exists and differs from the final artifact; a
failing `os.remove` only prints a warning. -/
def cleanup_rm_patched (c : Config) (w : World) (s1 : RunState) : RunState :=
  if s1.fs.pathExists (patched_apk c) = true ∧ ¬ patched_apk c = zipaligned_apk c then
    let ok := w.removeOk s1.nRemove
    { s1 with fs := if ok then s1.fs.removeFile (patched_apk c) else s1.fs,
              nRemove := s1.nRemove + 1,
              trace := s1.trace ++ [Event.removedFile (patched_apk c) ok] }
  else s1

/-- `_cleanup_files` (lines 271-290): best effort, never raises — both
removals are wrapped in try/except, failures merely print warnings. -/
def cleanup_files (c : Config) (w : World) (s : RunState) : RunState :=
  cleanup_rm_patched c w (cleanup_rm_extraction c w s)

/-! ### The pipeline (`cut`, lines 221-269) -/

/-- Sequencing of two statements under exception propagation. -/
def stageSeq (f g : RunState → StageResult) : RunState → StageResult :=
  fun s =>
    match f s with
    | Except.error e => Except.error e
    | Except.ok s1 => g s1

/-- Steps 1-4 of `cut` (lines 232-242), up to and including repackaging. -/
def mainStages (c : Config) (w : World) : RunState → StageResult :=
  stageSeq (decompile_apk c w)
    (stageSeq (add_network_file c)
      (stageSeq (add_network_attribute_to_manifest c)
        (stageSeq (check_compile_sdk_version c)
          (repackage_apk c w))))

/-- The signing-strategy branch of `cut` (lines 244-251): on
`compile_sdk >= 30` align then sign with apksigner, otherwise sign with
jarsigner then align; both branches deliver `self.zipaligned_apk` as the
final artifact. -/
def signAlignPhase (c : Config) (w : World) (v : Int) (s : RunState) :
    Except (Err × RunState) (RunState × String) :=
  if 30 ≤ v then
    match zipalign_apk c w s with
    | Except.error e => Except.error e
    | Except.ok s1 =>
      match apksign_apk c w s1 with
      | Except.error e => Except.error e
      | Except.ok s2 => Except.ok (s2, zipaligned_apk c)
  else
    match jarsign_apk c w s with
    | Except.error e => Except.error e
    | Except.ok s1 =>
      match zipalign_apk c w s1 with
      | Except.error e => Except.error e
      | Except.ok s2 => Except.ok (s2, zipaligned_apk c)

/-- The whole try-block body of `cut` up to the final-artifact check:
steps 1-4 followed by the version branch.  A still-unset `compile_sdk`
(impossible after step 3, but the comparison `None >= 30` would raise
TypeError) is the `sdkUnset` error. -/
def pipelineStages (c : Config) (w : World) (s0 : RunState) :
    Except (Err × RunState) (RunState × String) :=
  match mainStages c w s0 with
  | Except.error e => Except.error e
  | Except.ok s5 =>
    match s5.compile_sdk with
    | none => Except.error (Err.sdkUnset, s5)
    | some v => signAlignPhase c w v s5

/-- Lines 253-265: verify the final artifact exists, clean up unless
`keep_files`, and report success; a missing final artifact is reported as
failure (no exception). -/
def cutBody (c : Config) (w : World) (s0 : RunState) :
    Except (Err × RunState) (Bool × RunState) :=
  match pipelineStages c w s0 with
  | Except.error e => Except.error e
  | Except.ok sf =>
    if sf.1.fs.pathExists sf.2 = true then
      Except.ok (true, if c.keep_files = false then cleanup_files c w sf.1 else sf.1)
    else Except.ok (false, sf.1)

/-- `Interceptra.cut` (lines 221-269): the pre-flight `os.path.isfile`
check, then the try-block; every exception raised inside is caught by the
`except Exception` handler (line 267) and mapped to `False`.  Returns the
boolean outcome together with the final run state (for trace inspection). -/
def cut (c : Config) (w : World) : Bool × RunState :=
  if w.fs0.isFile c.apk = false then (false, initState w)
  else
    match cutBody c w (initState w) with
    | Except.ok r => r
    | Except.error e => (false, e.snd)

end Interceptra

namespace CLI

/-! ### The CLI (`src/interceptra.py`)

`handle_args` delegates to `argparse`, which on an argument error (missing
required `--apk`, unrecognized flag) prints usage and terminates the
process with exit status 2 (standard `argparse.ArgumentParser.error`
behaviour); that termination happens before `main`'s try-block.  A parsed
command line yields the four argument values; `parse_tool_paths` absorbs
every JSON error into `None`, so the tools value is already an
`Option`.  `main` then checks the input file, constructs the `Interceptra`
object and runs `cut`, returning 0 on success and 1 on any failure, and
`sys.exit(main())` makes that the process exit status. -/

structure CliArgs where
  apk : String
  verbose : Bool
  keep_files : Bool
  tools : Option (List (String × String))
deriving DecidableEq

inductive CliInvocation where
  | badArgs
  | parsed (args : CliArgs)

/-- Process exit status of `python interceptra.py ...` for a given parse
outcome and world. -/
def mainExit (inv : CliInvocation) (w : Interceptra.World) : Nat :=
  match inv with
  | CliInvocation.badArgs => 2
  | CliInvocation.parsed a =>
    if w.fs0.isFile a.apk = false then 1
    else
      if (Interceptra.cut
            (Interceptra.interceptraInit a.apk a.verbose a.tools a.keep_files) w).1
      then 0 else 1

end CLI

namespace Interceptra

/-! ### Trace predicates for the abort/no-retry analysis -/

/-- Every external command recorded in the list exited with status 0. -/
def noFailCmd (l : List Event) : Prop :=
  ∀ argv code, Event.ranCommand argv code ∈ l → code = 0

/-- `s1` continues `s`: the trace grew by events none of which is a failed
command. -/
def extendsOk (s s1 : RunState) : Prop :=
  ∃ ext, s1.trace = s.trace ++ ext ∧ noFailCmd ext

/-- Shape of the trace at the moment an exception reaches the orchestrator:
for a `CommandError` the very last event is the failing command itself (so
nothing ran after it, in particular it was never retried), and every
command before it had succeeded; for every other exception no recorded
command failed at all. -/
def errWitness : Err → RunState → RunState → Prop
  | Err.commandError code, s, s1 =>
    code ≠ 0 ∧ ∃ pre argv,
      s1.trace = s.trace ++ (pre ++ [Event.ranCommand argv code]) ∧ noFailCmd pre
  | _, s, s1 => extendsOk s s1

/-- A stage respects the abort discipline. -/
def GoodStage (f : RunState → StageResult) : Prop :=
  ∀ s, (∀ s1, f s = Except.ok s1 → extendsOk s s1) ∧
       (∀ e s1, f s = Except.error (e, s1) → errWitness e s s1)

/-- Shape of every string `os.path.dirname` can return: empty, all slashes,
or not ending in a slash. -/
def GoodDir (d : List Char) : Prop :=
  d = [] ∨ d.all isSlash = true ∨ (∃ a, d.getLast? = some a ∧ notSlash a = true)

/-! ### Concrete sample data for witnesses and counterexamples -/

/-- A file system where every path exists and the manifest declares
compileSdkVersion 30. -/
def fullFS : FS :=
  { isFile := fun _ => true, isDir := fun _ => true,
    manifest := XmlDoc.doc [(compileSdkAttr, "30")] (some []) }

/-- A file system with nothing on it. -/
def emptyFS : FS :=
  { isFile := fun _ => false, isDir := fun _ => false, manifest := XmlDoc.parseError }

/-- A file system whose manifest's root carries the given compileSdkVersion
attribute value. -/
def manFS (v : String) : FS :=
  { isFile := fun _ => true, isDir := fun _ => false,
    manifest := XmlDoc.doc [(compileSdkAttr, v)] (some []) }

/-- A fresh run state over a given file system. -/
def stateOf (fs : FS) : RunState :=
  { fs := fs, compile_sdk := none, nCmd := 0, nRmtree := 0, nRemove := 0, trace := [] }

def sampleCfg : Config := interceptraInit ("/tmp/app.apk") false none false

def missingCfg : Config := interceptraInit ("/tmp/missing.apk") false none false

/-- Every tool succeeds and leaves everything in place. -/
def okWorld : World :=
  { fs0 := fullFS, cmds := fun _ => CmdOutcome.exited 0 fullFS,
    rmtreeOk := fun _ => true, removeOk := fun _ => true }

/-- A world whose file system is empty; tools succeed but create nothing. -/
def noOutWorld : World :=
  { fs0 := emptyFS, cmds := fun _ => CmdOutcome.exited 0 emptyFS,
    rmtreeOk := fun _ => true, removeOk := fun _ => true }

/-- A world whose very first external command exits with status 1. -/
def failWorld : World :=
  { fs0 := emptyFS, cmds := fun _ => CmdOutcome.exited 1 emptyFS,
    rmtreeOk := fun _ => true, removeOk := fun _ => true }

/-- State after `signAlignPhase` succeeds on the modern branch in
`okWorld` from a fresh `fullFS` state. -/
def s30 : RunState :=
  { fs := fullFS, compile_sdk := none, nCmd := 2, nRmtree := 0, nRemove := 0,
    trace := [Event.madeDirs (dirname (zipaligned_apk sampleCfg)),
              Event.ranCommand (zipalignArgv sampleCfg) 0,
              Event.ranCommand (apksignArgv sampleCfg) 0] }

/-- State after `signAlignPhase` succeeds on the legacy branch in
`okWorld` from a fresh `fullFS` state. -/
def s29 : RunState :=
  { fs := fullFS, compile_sdk := none, nCmd := 2, nRmtree := 0, nRemove := 0,
    trace := [Event.ranCommand (jarsignArgv sampleCfg) 0,
              Event.madeDirs (dirname (zipaligned_apk sampleCfg)),
              Event.ranCommand (zipalignArgv sampleCfg) 0] }

/-- State in which `pipelineStages` stops in `failWorld`: the decompile
command has just failed. -/
def failedState : RunState :=
  { fs := emptyFS, compile_sdk := none, nCmd := 1, nRmtree := 0, nRemove := 0,
    trace := [Event.ranCommand (decompileArgv sampleCfg) 1] }

/-- A manifest whose root element carries no compileSdkVersion attribute. -/
def manFSNone : FS :=
  { isFile := fun _ => true, isDir := fun _ => false,
    manifest := XmlDoc.doc [] (some []) }

/-- State right after the repack command exits 0 in `noOutWorld` (which
creates no output file). -/
def repackOkState : RunState :=
  { fs := emptyFS, compile_sdk := none, nCmd := 1, nRmtree := 0, nRemove := 0,
    trace := [Event.ranCommand (repackArgv sampleCfg) 0] }

/-- State right after the zipalign command exits 0 in `noOutWorld`. -/
def zaOkState : RunState :=
  { fs := emptyFS, compile_sdk := none, nCmd := 1, nRmtree := 0, nRemove := 0,
    trace := [Event.madeDirs (dirname (zipaligned_apk sampleCfg)),
              Event.ranCommand (zipalignArgv sampleCfg) 0] }

/-- Same bundle path as `sampleCfg` but different flags. -/
def sampleCfg2 : Config := interceptraInit ("/tmp/app.apk") true none true

/-- Final pipeline state of a full successful run of `sampleCfg` in
`okWorld`. -/
def okRunState : RunState :=
  { fs := fullFS, compile_sdk := some 30, nCmd := 4, nRmtree := 1, nRemove := 0,
    trace := [Event.removedTree (extraction_dir sampleCfg) true,
              Event.ranCommand (decompileArgv sampleCfg) 0,
              Event.madeDirs (joinPath (extraction_dir sampleCfg) ("res/xml")),
              Event.wroteFile (joinPath (joinPath (extraction_dir sampleCfg) ("res/xml"))
                ("network_security_config.xml")),
              Event.wroteFile (manifestPath sampleCfg),
              Event.ranCommand (repackArgv sampleCfg) 0,
              Event.madeDirs (dirname (zipaligned_apk sampleCfg)),
              Event.ranCommand (zipalignArgv sampleCfg) 0,
              Event.ranCommand (apksignArgv sampleCfg) 0] }

end Interceptra

namespace CLI

/-- A parsed command line naming a missing bundle. -/
def missArgs : CliArgs :=
  { apk := "/tmp/missing.apk", verbose := false, keep_files := false, tools := none }

/-- A parsed command line naming the sample bundle. -/
def okArgs : CliArgs :=
  { apk := "/tmp/app.apk", verbose := false, keep_files := false, tools := none }

end CLI

namespace Interceptra

/-! ### List helpers -/

theorem takeWhileAppendAll {α : Type} (p : α → Bool) (l1 l2 : List α)
    (h : ∀ a ∈ l1, p a = true) : (l1 ++ l2).takeWhile p = l1 ++ l2.takeWhile p := by
  induction l1 with
  | nil => simp
  | cons x xs ih =>
    have hx : p x = true := h x (List.mem_cons_self x xs)
    simp [List.takeWhile, hx, ih (fun a ha => h a (List.mem_cons_of_mem x ha))]

theorem dropWhileAppendAll {α : Type} (p : α → Bool) (l1 l2 : List α)
    (h : ∀ a ∈ l1, p a = true) : (l1 ++ l2).dropWhile p = l2.dropWhile p := by
  induction l1 with
  | nil => simp
  | cons x xs ih =>
    have hx : p x = true := h x (List.mem_cons_self x xs)
    simp [List.dropWhile, hx, ih (fun a ha => h a (List.mem_cons_of_mem x ha))]

theorem dropWhileConsStop {α : Type} (p : α → Bool) (a : α) (l : List α)
    (h : p a = false) : (a :: l).dropWhile p = a :: l := by
  simp [List.dropWhile, h]

theorem dropWhileAllTrue {α : Type} (p : α → Bool) (l : List α)
    (h : ∀ a ∈ l, p a = true) : l.dropWhile p = [] := by
  have := dropWhileAppendAll p l [] h
  simpa using this

theorem takeWhileAllTrue {α : Type} (p : α → Bool) (l : List α)
    (h : ∀ a ∈ l, p a = true) : l.takeWhile p = l := by
  have := takeWhileAppendAll p l [] h
  simpa using this

theorem isPrefixOfAppendCancel (a b c : List Char) :
    (a ++ b).isPrefixOf (a ++ c) = b.isPrefixOf c := by
  induction a with
  | nil => rfl
  | cons x xs ih => simp [List.isPrefixOf, ih]

/-! ### Path lemmas -/

theorem notSlash_iff (ch : Char) : notSlash ch = true ↔ ch ≠ '/' := by
  simp [notSlash]

theorem isSlash_iff (ch : Char) : isSlash ch = true ↔ ch = '/' := by
  simp [isSlash]

theorem notSlash_of_not_isSlash (ch : Char) (h : isSlash ch = false) : notSlash ch = true := by
  simp [isSlash] at h
  simp [notSlash, h]

theorem isSlash_of_not_notSlash (ch : Char) (h : notSlash ch = false) : isSlash ch = true := by
  simp [notSlash] at h
  simp [isSlash, h]

theorem slashFree_basenameL (cs : List Char) : (basenameL cs).all notSlash = true := by
  rw [List.all_eq_true]
  intro a ha
  rw [basenameL, List.mem_reverse] at ha
  exact List.mem_takeWhile_imp ha

theorem slashFree_splitextRootL (cs : List Char) (h : cs.all notSlash = true) :
    (splitextRootL cs).all notSlash = true := by
  rw [List.all_eq_true] at h ⊢
  intro a ha
  rw [splitextRootL] at ha
  rcases hm : ((basenameL cs).reverse.dropWhile notDot) with _ | ⟨x, preRev⟩
  · rw [hm] at ha
    exact h a ha
  · rw [hm] at ha
    by_cases hp : preRev.any notDot = true
    · simp only [hp, if_true] at ha
      exact h a (List.take_subset _ _ ha)
    · simp only [hp, if_false] at ha
      exact h a ha

theorem slashFree_file_name (c : Config) : (file_name c).data.all notSlash = true := by
  rw [file_name, splitextRoot]
  exact slashFree_splitextRootL _ (slashFree_basenameL _)

theorem strDataAppend (a b : String) : (a ++ b).data = a.data ++ b.data := by
  cases a; cases b; rfl

theorem strEqOfData (a b : String) (h : a.data = b.data) : a = b := by
  exact congrArg String.mk h

theorem headDropWhileFalse {α : Type} (p : α → Bool) :
    ∀ (l : List α) (a : α) (rest : List α), l.dropWhile p = a :: rest → p a = false := by
  intro l
  induction l with
  | nil =>
    intro a rest h
    simp [List.dropWhile] at h
  | cons x xs ih =>
    intro a rest h
    by_cases hx : p x = true
    · rw [List.dropWhile, hx] at h
      exact ih a rest h
    · have hx0 : p x = false := by simpa using hx
      rw [List.dropWhile, hx0] at h
      cases h
      exact hx0

theorem goodDir_dirnameL (cs : List Char) : GoodDir (dirnameL cs) := by
  rw [dirnameL]
  by_cases hc : headPartL cs ≠ [] ∧ (headPartL cs).any notSlash = true
  · rw [if_pos hc]
    rcases hh : ((headPartL cs).reverse.dropWhile isSlash) with _ | ⟨a, rest⟩
    · left
      rw [stripTrailDL, hh]
      rfl
    · right; right
      refine ⟨a, ?_, ?_⟩
      · rw [stripTrailDL, hh, List.getLast?_reverse]
        rfl
      · exact notSlash_of_not_isSlash a (headDropWhileFalse isSlash _ a rest hh)
  · rw [if_neg hc]
    rw [not_and_or] at hc
    rcases hc with hc | hc
    · left
      simpa using hc
    · right; left
      rw [List.all_eq_true]
      intro a ha
      by_contra hs
      have hs0 : isSlash a = false := by simpa using hs
      exact hc (List.any_eq_true.mpr ⟨a, ha, notSlash_of_not_isSlash a hs0⟩)

end Interceptra

namespace Interceptra

theorem consOfHeadSome {α : Type} (l : List α) (a : α) (h : l.head? = some a) :
    ∃ t, l = a :: t := by
  cases l with
  | nil => simp at h
  | cons x t =>
    simp at h
    exact ⟨t, by rw [h]⟩

/-- `os.path.dirname` of anything has the `GoodDir` shape, so joining a
slash-free name onto it and taking `dirname` again lands back on it. -/
theorem dirnameLJoin (d f : List Char) (hd : GoodDir d) (hf : f.all notSlash = true) :
    dirnameL (joinL d f) = d := by
  have hfmem : ∀ a ∈ f, notSlash a = true := List.all_eq_true.mp hf
  have hfrev : ∀ a ∈ f.reverse, notSlash a = true := by
    intro a ha
    exact hfmem a (List.mem_reverse.mp ha)
  have hfhead : ¬ f.head? = some '/' := by
    intro h
    obtain ⟨t, ht⟩ := consOfHeadSome f '/' h
    have := hfmem '/' (by rw [ht]; exact List.mem_cons_self _ _)
    simp [notSlash] at this
  rw [joinL, if_neg hfhead]
  by_cases hde : d = [] ∨ d.getLast? = some '/'
  · rw [if_pos hde]
    rcases hde with hde | hde
    · subst hde
      rw [List.nil_append, dirnameL]
      have hhp : headPartL f = [] := by
        rw [headPartL, dropWhileAllTrue notSlash _ hfrev]
        rfl
      rw [hhp]
      simp
    · -- d ends in '/'; with GoodDir this forces d to be all slashes
      obtain ⟨t, ht⟩ := consOfHeadSome d.reverse '/' (by rw [List.head?_reverse]; exact hde)
      have hdne : d ≠ [] := by
        intro h0
        rw [h0] at ht
        simp at ht
      have hall : d.all isSlash = true := by
        rcases hd with h1 | h1 | h1
        · exact absurd h1 hdne
        · exact h1
        · obtain ⟨a, ha1, ha2⟩ := h1
          rw [hde] at ha1
          cases ha1
          simp [notSlash] at ha2
      have hhp : headPartL (d ++ f) = d := by
        rw [headPartL, List.reverse_append, dropWhileAppendAll notSlash _ _ hfrev, ht,
            dropWhileConsStop]
        · rw [← ht, List.reverse_reverse]
        · simp [notSlash]
      rw [dirnameL, hhp, if_neg]
      rw [not_and_or]
      right
      intro hany
      obtain ⟨a, ha1, ha2⟩ := List.any_eq_true.mp hany
      have := List.all_eq_true.mp hall a ha1
      rw [isSlash_iff] at this
      rw [this] at ha2
      simp [notSlash] at ha2
  · rw [if_neg hde]
    push_neg at hde
    obtain ⟨hdne, hdlast⟩ := hde
    obtain ⟨a, ha1, ha2⟩ : ∃ a, d.getLast? = some a ∧ notSlash a = true := by
      rcases hd with h1 | h1 | h1
      · exact absurd h1 hdne
      · rcases hrev : d.reverse with _ | ⟨b, t⟩
        · exact absurd (by simpa using congrArg List.reverse hrev) hdne
        · exfalso
          apply hdlast
          have hbmem : b ∈ d := by
            rw [← List.mem_reverse, hrev]
            exact List.mem_cons_self b t
          have hb := List.all_eq_true.mp h1 b hbmem
          rw [isSlash_iff] at hb
          rw [← List.head?_reverse, hrev, hb]
          rfl
      · exact h1
    obtain ⟨t, ht⟩ := consOfHeadSome d.reverse a (by rw [List.head?_reverse]; exact ha1)
    have hamem : a ∈ d := by
      rw [← List.mem_reverse, ht]
      exact List.mem_cons_self a t
    have hhp : headPartL (d ++ '/' :: f) = d ++ ['/'] := by
      rw [headPartL, List.reverse_append]
      have : ('/' :: f).reverse = f.reverse ++ ['/'] := by simp
      rw [this, List.append_assoc, dropWhileAppendAll notSlash _ _ hfrev,
          List.singleton_append,
          dropWhileConsStop notSlash '/' d.reverse (by simp [notSlash])]
      simp
    rw [dirnameL, hhp, if_pos]
    · rw [stripTrailDL, List.reverse_append]
      have : (['/'] : List Char).reverse = ['/'] := rfl
      rw [this]
      have hdw : List.dropWhile isSlash ('/' :: d.reverse) = List.dropWhile isSlash d.reverse := by
        simp [List.dropWhile, isSlash]
      rw [List.singleton_append, hdw, ht, dropWhileConsStop isSlash a t
            (by rw [notSlash_iff] at ha2; simp [isSlash, ha2]), ← ht, List.reverse_reverse]
    · constructor
      · simp
      · rw [List.any_eq_true]
        exact ⟨a, List.mem_append_left _ hamem, ha2⟩

/-- Joining `b ++ sfx` is joining `b` then appending, provided `b` is
slash-free and `sfx` starts with an underscore. -/
theorem joinLAppend (d b sfx : List Char) (hb : b.all notSlash = true)
    (hs : sfx.head? = some '_') : joinL d (b ++ sfx) = joinL d b ++ sfx := by
  have hbs : ¬ (b ++ sfx).head? = some '/' := by
    cases b with
    | nil =>
      rw [List.nil_append, hs]
      simp
    | cons x t =>
      have hx := List.all_eq_true.mp hb x (List.mem_cons_self x t)
      rw [notSlash_iff] at hx
      simp [hx]
  have hbh : ¬ b.head? = some '/' := by
    cases b with
    | nil => simp
    | cons x t =>
      have hx := List.all_eq_true.mp hb x (List.mem_cons_self x t)
      rw [notSlash_iff] at hx
      simp [hx]
  rw [joinL, joinL, if_neg hbs, if_neg hbh]
  by_cases hde : d = [] ∨ d.getLast? = some '/'
  · rw [if_pos hde, if_pos hde, List.append_assoc]
  · rw [if_neg hde, if_neg hde]
    simp

end Interceptra

namespace Interceptra

/-! ### The working paths: decomposition and colocation -/

theorem dirname_join_output (c : Config) (f : String) (hf : f.data.all notSlash = true) :
    dirname (joinPath (output_dir c) f) = output_dir c := by
  apply strEqOfData
  exact dirnameLJoin _ _ (goodDir_dirnameL _) hf

theorem slashFree_patched_name (c : Config) :
    (file_name c ++ "_patched.apk").data.all notSlash = true := by
  rw [strDataAppend, List.all_append, slashFree_file_name, Bool.true_and]
  decide

theorem slashFree_zipaligned_name (c : Config) :
    (file_name c ++ "_patched_zipaligned.apk").data.all notSlash = true := by
  rw [strDataAppend, List.all_append, slashFree_file_name, Bool.true_and]
  decide

theorem dirname_patched_apk (c : Config) : dirname (patched_apk c) = output_dir c :=
  dirname_join_output c _ (slashFree_patched_name c)

theorem dirname_zipaligned_apk (c : Config) : dirname (zipaligned_apk c) = output_dir c :=
  dirname_join_output c _ (slashFree_zipaligned_name c)

theorem dirname_extraction_dir (c : Config) : dirname (extraction_dir c) = output_dir c :=
  dirname_join_output c _ (slashFree_file_name c)

/-- The intermediate archive is the extraction directory's path plus a
fixed suffix. -/
theorem patchedDecomp (c : Config) :
    patched_apk c = extraction_dir c ++ "_patched.apk" := by
  apply strEqOfData
  show joinL ((output_dir c).data) ((file_name c ++ ("_patched.apk")).data) =
    (extraction_dir c ++ ("_patched.apk")).data
  rw [strDataAppend, strDataAppend]
  exact joinLAppend _ _ _ (slashFree_file_name c) (by decide)

/-- The final archive is the extraction directory's path plus a fixed
suffix. -/
theorem zipalignedDecomp (c : Config) :
    zipaligned_apk c = extraction_dir c ++ "_patched_zipaligned.apk" := by
  apply strEqOfData
  show joinL ((output_dir c).data) ((file_name c ++ ("_patched_zipaligned.apk")).data) =
    (extraction_dir c ++ ("_patched_zipaligned.apk")).data
  rw [strDataAppend, strDataAppend]
  exact joinLAppend _ _ _ (slashFree_file_name c) (by decide)

/-- The intermediate and final archives never share a path. -/
theorem patchedNeZipaligned (c : Config) : ¬ patched_apk c = zipaligned_apk c := by
  rw [patchedDecomp, zipalignedDecomp]
  intro h
  have h2 := congrArg String.data h
  rw [strDataAppend, strDataAppend] at h2
  have h3 := List.append_cancel_left h2
  exact absurd h3 (by decide)

/-- The final archive is not the extraction directory itself. -/
theorem zipalignedNeExt (c : Config) : ¬ zipaligned_apk c = extraction_dir c := by
  rw [zipalignedDecomp]
  intro h
  have h2 := congrArg String.data h.symm
  rw [strDataAppend] at h2
  have := List.self_eq_append_right.mp h2
  simp at this

/-- The intermediate archive is not the extraction directory itself. -/
theorem patchedNeExt (c : Config) : ¬ patched_apk c = extraction_dir c := by
  rw [patchedDecomp]
  intro h
  have h2 := congrArg String.data h.symm
  rw [strDataAppend] at h2
  have := List.self_eq_append_right.mp h2
  simp at this

/-- The final archive does not live inside the extraction directory. -/
theorem extNotPreZipaligned (c : Config) :
    ((extraction_dir c ++ "/").data.isPrefixOf (zipaligned_apk c).data) = false := by
  rw [zipalignedDecomp, strDataAppend, strDataAppend, isPrefixOfAppendCancel]
  decide

/-- The intermediate archive does not live inside the extraction
directory. -/
theorem extNotPrePatched (c : Config) :
    ((extraction_dir c ++ "/").data.isPrefixOf (patched_apk c).data) = false := by
  rw [patchedDecomp, strDataAppend, strDataAppend, isPrefixOfAppendCancel]
  decide

/-! ### File-system operation frame lemmas -/

theorem rmtree_isFile_other (fs : FS) (d p : String) (h1 : ¬ p = d)
    (h2 : ((d ++ "/").data.isPrefixOf p.data) = false) :
    (fs.rmtree d).isFile p = fs.isFile p := by
  have hbeq : (p == d) = false := beq_eq_false_iff_ne.mpr h1
  show (fs.isFile p && !(p == d) && !((d ++ "/").data.isPrefixOf p.data)) = fs.isFile p
  rw [hbeq, h2]
  simp

theorem rmtree_isDir_other (fs : FS) (d p : String) (h1 : ¬ p = d)
    (h2 : ((d ++ "/").data.isPrefixOf p.data) = false) :
    (fs.rmtree d).isDir p = fs.isDir p := by
  have hbeq : (p == d) = false := beq_eq_false_iff_ne.mpr h1
  show (fs.isDir p && !(p == d) && !((d ++ "/").data.isPrefixOf p.data)) = fs.isDir p
  rw [hbeq, h2]
  simp

theorem rmtree_root_gone (fs : FS) (d : String) :
    (fs.rmtree d).pathExists d = false := by
  show ((fs.isFile d && !(d == d) && !((d ++ "/").data.isPrefixOf d.data)) ||
    (fs.isDir d && !(d == d) && !((d ++ "/").data.isPrefixOf d.data))) = false
  simp

theorem rmtree_subtree_gone (fs : FS) (d p : String)
    (h : ((d ++ "/").data.isPrefixOf p.data) = true) :
    (fs.rmtree d).isFile p = false ∧ (fs.rmtree d).isDir p = false := by
  constructor
  · show (fs.isFile p && !(p == d) && !((d ++ "/").data.isPrefixOf p.data)) = false
    rw [h]
    simp
  · show (fs.isDir p && !(p == d) && !((d ++ "/").data.isPrefixOf p.data)) = false
    rw [h]
    simp

theorem removeFile_other (fs : FS) (p q : String) (h : ¬ q = p) :
    (fs.removeFile p).isFile q = fs.isFile q := by
  have hbeq : (q == p) = false := beq_eq_false_iff_ne.mpr h
  show (fs.isFile q && !(q == p)) = fs.isFile q
  rw [hbeq]
  simp

theorem removeFile_gone (fs : FS) (p : String) : (fs.removeFile p).isFile p = false := by
  show (fs.isFile p && !(p == p)) = false
  simp

end Interceptra

namespace Interceptra

/-! ### Trace discipline lemmas -/

theorem noFailCmd_nil : noFailCmd [] := by
  intro argv code h
  simp at h

theorem noFailCmd_append (l1 l2 : List Event) (h1 : noFailCmd l1) (h2 : noFailCmd l2) :
    noFailCmd (l1 ++ l2) := by
  intro argv code h
  rcases List.mem_append.mp h with h | h
  · exact h1 argv code h
  · exact h2 argv code h

theorem extendsOk_refl (s : RunState) : extendsOk s s := by
  exact ⟨[], by simp, noFailCmd_nil⟩

theorem extendsOk_trans (s1 s2 s3 : RunState) (h1 : extendsOk s1 s2) (h2 : extendsOk s2 s3) :
    extendsOk s1 s3 := by
  obtain ⟨e1, ht1, hn1⟩ := h1
  obtain ⟨e2, ht2, hn2⟩ := h2
  exact ⟨e1 ++ e2, by rw [ht2, ht1, List.append_assoc], noFailCmd_append _ _ hn1 hn2⟩

theorem errWitness_after (e : Err) (s sm s1 : RunState) (h1 : extendsOk s sm)
    (h2 : errWitness e sm s1) : errWitness e s s1 := by
  cases e with
  | commandError code =>
    obtain ⟨ext1, ht1, hn1⟩ := h1
    obtain ⟨h0, pre, argv, ht2, hn2⟩ := h2
    refine ⟨h0, ext1 ++ pre, argv, ?_, noFailCmd_append _ _ hn1 hn2⟩
    rw [ht2, ht1]
    simp [List.append_assoc]
  | launchError => exact extendsOk_trans _ _ _ h1 h2
  | rmtreeFailed => exact extendsOk_trans _ _ _ h1 h2
  | manifestMissing => exact extendsOk_trans _ _ _ h1 h2
  | xmlParseFailed => exact extendsOk_trans _ _ _ h1 h2
  | appElementMissing => exact extendsOk_trans _ _ _ h1 h2
  | missingOutput p => exact extendsOk_trans _ _ _ h1 h2
  | sdkUnset => exact extendsOk_trans _ _ _ h1 h2

/-! ### `_run_command` characterization -/

theorem run_command_ok (w : World) (argv : List String) (s s1 : RunState)
    (h : run_command w argv s = Except.ok s1) :
    s1.trace = s.trace ++ [Event.ranCommand argv 0] ∧ s1.nCmd = s.nCmd + 1 ∧
    w.cmds s.nCmd = CmdOutcome.exited 0 s1.fs ∧ s1.compile_sdk = s.compile_sdk ∧
    s1.nRmtree = s.nRmtree ∧ s1.nRemove = s.nRemove := by
  rw [run_command] at h
  rcases hc : w.cmds s.nCmd with _ | ⟨code, fsA⟩
  · rw [hc] at h
    dsimp only at h
    exact absurd h (by simp)
  · rw [hc] at h
    dsimp only at h
    by_cases h0 : code = 0
    · subst h0
      rw [if_neg (by simp)] at h
      cases h
      exact ⟨rfl, rfl, rfl, rfl, rfl, rfl⟩
    · rw [if_pos h0] at h
      exact absurd h (by simp)

theorem run_command_err (w : World) (argv : List String) (s : RunState) (e : Err)
    (s1 : RunState) (h : run_command w argv s = Except.error (e, s1)) :
    (∃ code, e = Err.commandError code ∧ ¬ code = 0 ∧
       s1.trace = s.trace ++ [Event.ranCommand argv code]) ∨
    (e = Err.launchError ∧ s1.trace = s.trace ++ [Event.launchFailed argv]) := by
  rw [run_command] at h
  rcases hc : w.cmds s.nCmd with _ | ⟨code, fsA⟩
  · rw [hc] at h
    dsimp only at h
    simp only [Except.error.injEq, Prod.mk.injEq] at h
    right
    exact ⟨h.1.symm, by rw [← h.2]⟩
  · rw [hc] at h
    dsimp only at h
    by_cases h0 : code = 0
    · subst h0
      rw [if_neg (by simp)] at h
      exact absurd h (by simp)
    · rw [if_pos h0] at h
      simp only [Except.error.injEq, Prod.mk.injEq] at h
      left
      exact ⟨code, h.1.symm, h0, by rw [← h.2]⟩

theorem goodStage_run_command (w : World) (argv : List String) :
    GoodStage (run_command w argv) := by
  intro s
  constructor
  · intro s1 h
    obtain ⟨ht, _⟩ := run_command_ok w argv s s1 h
    refine ⟨[Event.ranCommand argv 0], ht, ?_⟩
    intro a k hk
    simp at hk
    exact hk.2
  · intro e s1 h
    rcases run_command_err w argv s e s1 h with ⟨code, he, h0, ht⟩ | ⟨he, ht⟩
    · subst he
      exact ⟨h0, [], argv, by simpa using ht, noFailCmd_nil⟩
    · subst he
      refine ⟨[Event.launchFailed argv], ht, ?_⟩
      intro a k hk
      simp at hk

/-! ### GoodStage for each stage and for sequencing -/

theorem goodStage_seq (f g : RunState → StageResult) (hf : GoodStage f) (hg : GoodStage g) :
    GoodStage (stageSeq f g) := by
  intro s
  constructor
  · intro s1 h
    rw [stageSeq] at h
    rcases hfs : f s with pe | sm
    · rw [hfs] at h
      exact absurd h (by simp)
    · rw [hfs] at h
      exact extendsOk_trans _ _ _ ((hf s).1 sm hfs) ((hg sm).1 s1 h)
  · intro e s1 h
    rw [stageSeq] at h
    rcases hfs : f s with pe | sm
    · rw [hfs] at h
      injection h with h'
      subst h'
      exact (hf s).2 e s1 hfs
    · rw [hfs] at h
      exact errWitness_after e s sm s1 ((hf s).1 sm hfs) ((hg sm).2 e s1 h)

theorem goodStage_decompile (c : Config) (w : World) : GoodStage (decompile_apk c w) := by
  intro s
  have hone : ∀ (b : Bool), noFailCmd [Event.removedTree (extraction_dir c) b] := by
    intro b a k hk
    simp at hk
  constructor
  · intro s1 h
    rw [decompile_apk] at h
    by_cases hex : s.fs.pathExists (extraction_dir c) = true
    · rw [if_pos hex] at h
      by_cases hok : w.rmtreeOk s.nRmtree = true
      · rw [hok, if_pos rfl] at h
        refine extendsOk_trans _ _ _
          ⟨[Event.removedTree (extraction_dir c) true], by simp, hone true⟩
          ((goodStage_run_command w (decompileArgv c) _).1 s1 h)
      · exact absurd h (by rw [Bool.eq_false_iff.mpr hok, if_neg (by simp)]; simp)
    · rw [if_neg hex] at h
      exact (goodStage_run_command w (decompileArgv c) s).1 s1 h
  · intro e s1 h
    rw [decompile_apk] at h
    by_cases hex : s.fs.pathExists (extraction_dir c) = true
    · rw [if_pos hex] at h
      by_cases hok : w.rmtreeOk s.nRmtree = true
      · rw [hok, if_pos rfl] at h
        refine errWitness_after e s _ s1
          ⟨[Event.removedTree (extraction_dir c) true], by simp, hone true⟩
          ((goodStage_run_command w (decompileArgv c) _).2 e s1 h)
      · rw [Bool.eq_false_iff.mpr hok, if_neg (by simp)] at h
        simp only [Except.error.injEq, Prod.mk.injEq] at h
        obtain ⟨he, hs⟩ := h
        subst he
        exact ⟨[Event.removedTree (extraction_dir c) false], by rw [← hs], hone false⟩
    · rw [if_neg hex] at h
      exact (goodStage_run_command w (decompileArgv c) s).2 e s1 h

theorem goodStage_add_network_file (c : Config) : GoodStage (add_network_file c) := by
  intro s
  constructor
  · intro s1 h
    rw [add_network_file] at h
    cases h
    refine ⟨[Event.madeDirs (joinPath (extraction_dir c) ("res/xml")),
             Event.wroteFile (joinPath (joinPath (extraction_dir c) ("res/xml"))
               ("network_security_config.xml"))], by simp, ?_⟩
    intro a k hk
    simp at hk
  · intro e s1 h
    rw [add_network_file] at h
    exact absurd h (by simp)

theorem goodStage_add_network_attribute (c : Config) :
    GoodStage (add_network_attribute_to_manifest c) := by
  intro s
  constructor
  · intro s1 h
    rw [add_network_attribute_to_manifest] at h
    by_cases hf : s.fs.isFile (manifestPath c) = false
    · rw [if_pos hf] at h
      exact absurd h (by simp)
    · rw [if_neg hf] at h
      rcases hm : s.fs.manifest with _ | ⟨rootAttrs, app⟩
      · rw [hm] at h
        exact absurd h (by simp)
      · rw [hm] at h
        rcases app with _ | appAttrs
        · exact absurd h (by simp)
        · simp only [Except.ok.injEq] at h
          refine ⟨[Event.wroteFile (manifestPath c)], by rw [← h], ?_⟩
          intro a k hk
          simp at hk
  · intro e s1 h
    rw [add_network_attribute_to_manifest] at h
    by_cases hf : s.fs.isFile (manifestPath c) = false
    · rw [if_pos hf] at h
      simp only [Except.error.injEq, Prod.mk.injEq] at h
      obtain ⟨he, hs⟩ := h
      subst he
      rw [← hs]
      exact extendsOk_refl s
    · rw [if_neg hf] at h
      rcases hm : s.fs.manifest with _ | ⟨rootAttrs, app⟩
      · rw [hm] at h
        simp only [Except.error.injEq, Prod.mk.injEq] at h
        obtain ⟨he, hs⟩ := h
        subst he
        rw [← hs]
        exact extendsOk_refl s
      · rw [hm] at h
        rcases app with _ | appAttrs
        · simp only [Except.error.injEq, Prod.mk.injEq] at h
          obtain ⟨he, hs⟩ := h
          subst he
          rw [← hs]
          exact extendsOk_refl s
        · exact absurd h (by simp)

theorem goodStage_check_sdk (c : Config) : GoodStage (check_compile_sdk_version c) := by
  intro s
  constructor
  · intro s1 h
    rw [check_compile_sdk_version] at h
    rcases hm : parsedManifest c s.fs with _ | ⟨rootAttrs, app⟩ <;> rw [hm] at h <;>
      dsimp only at h
    · simp only [Except.ok.injEq] at h
      exact ⟨[], by rw [← h]; simp, noFailCmd_nil⟩
    · rcases hl : lookupAttr rootAttrs compileSdkAttr with _ | v <;> rw [hl] at h <;>
        dsimp only at h
      · simp only [Except.ok.injEq] at h
        exact ⟨[], by rw [← h]; simp, noFailCmd_nil⟩
      · rcases hp : pyInt v with _ | n <;> rw [hp] at h <;> dsimp only at h <;>
          simp only [Except.ok.injEq] at h <;>
          exact ⟨[], by rw [← h]; simp, noFailCmd_nil⟩
  · intro e s1 h
    rw [check_compile_sdk_version] at h
    rcases hm : parsedManifest c s.fs with _ | ⟨rootAttrs, app⟩ <;> rw [hm] at h <;>
      dsimp only at h
    · exact absurd h (by simp)
    · rcases hl : lookupAttr rootAttrs compileSdkAttr with _ | v <;> rw [hl] at h <;>
        dsimp only at h
      · exact absurd h (by simp)
      · rcases hp : pyInt v with _ | n <;> rw [hp] at h <;> dsimp only at h <;>
          exact absurd h (by simp)

theorem goodStage_repackage (c : Config) (w : World) : GoodStage (repackage_apk c w) := by
  intro s
  constructor
  · intro s1 h
    rw [repackage_apk] at h
    rcases hrc : run_command w (repackArgv c) s with pe | sm
    · rw [hrc] at h
      exact absurd h (by simp)
    · rw [hrc] at h
      dsimp only at h
      by_cases hex : sm.fs.pathExists (patched_apk c) = false
      · rw [if_pos hex] at h
        exact absurd h (by simp)
      · rw [if_neg hex] at h
        cases h
        exact (goodStage_run_command w (repackArgv c) s).1 s1 hrc
  · intro e s1 h
    rw [repackage_apk] at h
    rcases hrc : run_command w (repackArgv c) s with pe | sm
    · rw [hrc] at h
      injection h with h'
      subst h'
      exact (goodStage_run_command w (repackArgv c) s).2 e s1 hrc
    · rw [hrc] at h
      dsimp only at h
      by_cases hex : sm.fs.pathExists (patched_apk c) = false
      · rw [if_pos hex] at h
        simp only [Except.error.injEq, Prod.mk.injEq] at h
        obtain ⟨he, hs⟩ := h
        subst he
        rw [← hs]
        exact (goodStage_run_command w (repackArgv c) s).1 sm hrc
      · rw [if_neg hex] at h
        exact absurd h (by simp)

theorem goodStage_zipalign (c : Config) (w : World) : GoodStage (zipalign_apk c w) := by
  intro s
  have hpre : extendsOk s (zipalignPre c s) := by
    refine ⟨[Event.madeDirs (dirname (zipaligned_apk c))], by rw [zipalignPre], ?_⟩
    intro a k hk
    simp at hk
  constructor
  · intro s1 h
    rw [zipalign_apk] at h
    rcases hrc : run_command w (zipalignArgv c) (zipalignPre c s) with pe | sm
    · rw [hrc] at h
      exact absurd h (by simp)
    · rw [hrc] at h
      dsimp only at h
      by_cases hex : sm.fs.pathExists (zipaligned_apk c) = false
      · rw [if_pos hex] at h
        exact absurd h (by simp)
      · rw [if_neg hex] at h
        cases h
        exact extendsOk_trans _ _ _ hpre
          ((goodStage_run_command w (zipalignArgv c) _).1 s1 hrc)
  · intro e s1 h
    rw [zipalign_apk] at h
    rcases hrc : run_command w (zipalignArgv c) (zipalignPre c s) with pe | sm
    · rw [hrc] at h
      injection h with h'
      subst h'
      exact errWitness_after e s _ s1 hpre
        ((goodStage_run_command w (zipalignArgv c) _).2 e s1 hrc)
    · rw [hrc] at h
      dsimp only at h
      by_cases hex : sm.fs.pathExists (zipaligned_apk c) = false
      · rw [if_pos hex] at h
        simp only [Except.error.injEq, Prod.mk.injEq] at h
        obtain ⟨he, hs⟩ := h
        subst he
        rw [← hs]
        exact extendsOk_trans _ _ _ hpre
          ((goodStage_run_command w (zipalignArgv c) _).1 sm hrc)
      · rw [if_neg hex] at h
        exact absurd h (by simp)

theorem goodStage_mainStages (c : Config) (w : World) : GoodStage (mainStages c w) :=
  goodStage_seq _ _ (goodStage_decompile c w)
    (goodStage_seq _ _ (goodStage_add_network_file c)
      (goodStage_seq _ _ (goodStage_add_network_attribute c)
        (goodStage_seq _ _ (goodStage_check_sdk c) (goodStage_repackage c w))))

end Interceptra

namespace Interceptra

/-! ### Pipeline-level lemmas -/

theorem signAlignPhase_ok (c : Config) (w : World) (v : Int) (s s1 : RunState) (fin : String)
    (h : signAlignPhase c w v s = Except.ok (s1, fin)) :
    extendsOk s s1 ∧ fin = zipaligned_apk c := by
  rw [signAlignPhase] at h
  by_cases hv : 30 ≤ v
  · rw [if_pos hv] at h
    rcases h1 : zipalign_apk c w s with pe | sa <;> rw [h1] at h <;> dsimp only at h
    · exact absurd h (by simp)
    · rcases h2 : apksign_apk c w sa with pe | sb <;> rw [h2] at h <;> dsimp only at h
      · exact absurd h (by simp)
      · simp only [Except.ok.injEq, Prod.mk.injEq] at h
        obtain ⟨hs, hf⟩ := h
        subst hs
        exact ⟨extendsOk_trans _ _ _ ((goodStage_zipalign c w s).1 sa h1)
          ((goodStage_run_command w (apksignArgv c) sa).1 _ h2), hf.symm⟩
  · rw [if_neg hv] at h
    rcases h1 : jarsign_apk c w s with pe | sa <;> rw [h1] at h <;> dsimp only at h
    · exact absurd h (by simp)
    · rcases h2 : zipalign_apk c w sa with pe | sb <;> rw [h2] at h <;> dsimp only at h
      · exact absurd h (by simp)
      · simp only [Except.ok.injEq, Prod.mk.injEq] at h
        obtain ⟨hs, hf⟩ := h
        subst hs
        exact ⟨extendsOk_trans _ _ _ ((goodStage_run_command w (jarsignArgv c) s).1 sa h1)
          ((goodStage_zipalign c w sa).1 _ h2), hf.symm⟩

theorem signAlignPhase_err (c : Config) (w : World) (v : Int) (s : RunState) (e : Err)
    (s1 : RunState) (h : signAlignPhase c w v s = Except.error (e, s1)) :
    errWitness e s s1 := by
  rw [signAlignPhase] at h
  by_cases hv : 30 ≤ v
  · rw [if_pos hv] at h
    rcases h1 : zipalign_apk c w s with pe | sa <;> rw [h1] at h <;> dsimp only at h
    · injection h with h'
      subst h'
      exact (goodStage_zipalign c w s).2 e s1 h1
    · rcases h2 : apksign_apk c w sa with pe | sb <;> rw [h2] at h <;> dsimp only at h
      · injection h with h'
        subst h'
        exact errWitness_after e s sa s1 ((goodStage_zipalign c w s).1 sa h1)
          ((goodStage_run_command w (apksignArgv c) sa).2 e s1 h2)
      · exact absurd h (by simp)
  · rw [if_neg hv] at h
    rcases h1 : jarsign_apk c w s with pe | sa <;> rw [h1] at h <;> dsimp only at h
    · injection h with h'
      subst h'
      exact (goodStage_run_command w (jarsignArgv c) s).2 e s1 h1
    · rcases h2 : zipalign_apk c w sa with pe | sb <;> rw [h2] at h <;> dsimp only at h
      · injection h with h'
        subst h'
        exact errWitness_after e s sa s1 ((goodStage_run_command w (jarsignArgv c) s).1 sa h1)
          ((goodStage_zipalign c w sa).2 e s1 h2)
      · exact absurd h (by simp)

theorem pipelineStages_ok (c : Config) (w : World) (s0 s1 : RunState) (fin : String)
    (h : pipelineStages c w s0 = Except.ok (s1, fin)) :
    extendsOk s0 s1 ∧ fin = zipaligned_apk c := by
  rw [pipelineStages] at h
  rcases hm : mainStages c w s0 with pe | s5 <;> rw [hm] at h <;> dsimp only at h
  · exact absurd h (by simp)
  · rcases hsdk : s5.compile_sdk with _ | v <;> rw [hsdk] at h <;> dsimp only at h
    · exact absurd h (by simp)
    · obtain ⟨he, hf⟩ := signAlignPhase_ok c w v s5 s1 fin h
      exact ⟨extendsOk_trans _ _ _ ((goodStage_mainStages c w s0).1 s5 hm) he, hf⟩

theorem pipelineStages_err (c : Config) (w : World) (s0 : RunState) (e : Err) (s1 : RunState)
    (h : pipelineStages c w s0 = Except.error (e, s1)) : errWitness e s0 s1 := by
  rw [pipelineStages] at h
  rcases hm : mainStages c w s0 with pe | s5 <;> rw [hm] at h <;> dsimp only at h
  · injection h with h'
    subst h'
    exact (goodStage_mainStages c w s0).2 e s1 hm
  · rcases hsdk : s5.compile_sdk with _ | v <;> rw [hsdk] at h <;> dsimp only at h
    · simp only [Except.error.injEq, Prod.mk.injEq] at h
      obtain ⟨he, hs⟩ := h
      subst he
      subst hs
      exact (goodStage_mainStages c w s0).1 s5 hm
    · exact errWitness_after e s0 s5 s1 ((goodStage_mainStages c w s0).1 s5 hm)
        (signAlignPhase_err c w v s5 e s1 h)

/-! ### `cut` characterization -/

theorem cut_of_not_isfile (c : Config) (w : World) (h : w.fs0.isFile c.apk = false) :
    cut c w = (false, initState w) := by
  rw [cut, if_pos h]

theorem cut_of_err (c : Config) (w : World) (e : Err) (s1 : RunState)
    (hf : w.fs0.isFile c.apk = true)
    (h : pipelineStages c w (initState w) = Except.error (e, s1)) :
    cut c w = (false, s1) := by
  rw [cut, if_neg (by rw [hf]; simp), cutBody, h]

theorem cut_of_ok (c : Config) (w : World) (s1 : RunState) (fin : String)
    (hf : w.fs0.isFile c.apk = true)
    (h : pipelineStages c w (initState w) = Except.ok (s1, fin)) :
    cut c w = (if s1.fs.pathExists fin = true then
                 (true, if c.keep_files = false then cleanup_files c w s1 else s1)
               else (false, s1)) := by
  rw [cut, if_neg (by rw [hf]; simp), cutBody, h]
  dsimp only
  by_cases hex : s1.fs.pathExists fin = true
  · rw [if_pos hex, if_pos hex]
  · rw [if_neg hex, if_neg hex]

/-! ### Exact trace shapes of the signing branch -/

theorem jarsign_ok_trace (c : Config) (w : World) (s s1 : RunState)
    (h : jarsign_apk c w s = Except.ok s1) :
    s1.trace = s.trace ++ [Event.ranCommand (jarsignArgv c) 0] :=
  (run_command_ok w (jarsignArgv c) s s1 h).1

theorem apksign_ok_trace (c : Config) (w : World) (s s1 : RunState)
    (h : apksign_apk c w s = Except.ok s1) :
    s1.trace = s.trace ++ [Event.ranCommand (apksignArgv c) 0] :=
  (run_command_ok w (apksignArgv c) s s1 h).1

theorem zipalign_ok_trace (c : Config) (w : World) (s s1 : RunState)
    (h : zipalign_apk c w s = Except.ok s1) :
    s1.trace = s.trace ++ [Event.madeDirs (dirname (zipaligned_apk c)),
      Event.ranCommand (zipalignArgv c) 0] := by
  rw [zipalign_apk] at h
  rcases hrc : run_command w (zipalignArgv c) (zipalignPre c s) with pe | sm <;>
    rw [hrc] at h <;> dsimp only at h
  · exact absurd h (by simp)
  · by_cases hex : sm.fs.pathExists (zipaligned_apk c) = false
    · rw [if_pos hex] at h
      exact absurd h (by simp)
    · rw [if_neg hex] at h
      cases h
      rw [(run_command_ok w (zipalignArgv c) (zipalignPre c s) _ hrc).1, zipalignPre]
      simp

end Interceptra

namespace Interceptra

/-! ### Cleanup lemmas -/

theorem cleanup_rm_extraction_frame (c : Config) (w : World) (s : RunState) (p : String)
    (hne : ¬ p = extraction_dir c)
    (hnp : ((extraction_dir c ++ "/").data.isPrefixOf p.data) = false) :
    (cleanup_rm_extraction c w s).fs.isFile p = s.fs.isFile p ∧
    (cleanup_rm_extraction c w s).fs.isDir p = s.fs.isDir p ∧
    (cleanup_rm_extraction c w s).nRemove = s.nRemove := by
  rw [cleanup_rm_extraction]
  by_cases hex : s.fs.pathExists (extraction_dir c) = true
  · rw [if_pos hex]
    by_cases hok : w.rmtreeOk s.nRmtree = true
    · rw [hok]
      dsimp only
      exact ⟨rmtree_isFile_other s.fs _ p hne hnp, rmtree_isDir_other s.fs _ p hne hnp, rfl⟩
    · rw [Bool.eq_false_iff.mpr hok]
      dsimp only
      exact ⟨rfl, rfl, rfl⟩
  · rw [if_neg hex]
    exact ⟨rfl, rfl, rfl⟩

theorem cleanup_rm_extraction_effect (c : Config) (w : World) (s : RunState)
    (hex : s.fs.pathExists (extraction_dir c) = true)
    (hok : w.rmtreeOk s.nRmtree = true) :
    (cleanup_rm_extraction c w s).fs.pathExists (extraction_dir c) = false := by
  rw [cleanup_rm_extraction, if_pos hex, hok]
  dsimp only
  exact rmtree_root_gone s.fs (extraction_dir c)

theorem cleanup_rm_patched_isFile_frame (c : Config) (w : World) (s1 : RunState)
    (p : String) (hne : ¬ p = patched_apk c) :
    (cleanup_rm_patched c w s1).fs.isFile p = s1.fs.isFile p := by
  rw [cleanup_rm_patched]
  by_cases hg : s1.fs.pathExists (patched_apk c) = true ∧ ¬ patched_apk c = zipaligned_apk c
  · rw [if_pos hg]
    by_cases hok : w.removeOk s1.nRemove = true
    · rw [hok]
      dsimp only
      exact removeFile_other s1.fs _ p hne
    · rw [Bool.eq_false_iff.mpr hok]
      rfl
  · rw [if_neg hg]

theorem cleanup_rm_patched_isDir (c : Config) (w : World) (s1 : RunState) (p : String) :
    (cleanup_rm_patched c w s1).fs.isDir p = s1.fs.isDir p := by
  rw [cleanup_rm_patched]
  by_cases hg : s1.fs.pathExists (patched_apk c) = true ∧ ¬ patched_apk c = zipaligned_apk c
  · rw [if_pos hg]
    by_cases hok : w.removeOk s1.nRemove = true
    · rw [hok]
      rfl
    · rw [Bool.eq_false_iff.mpr hok]
      rfl
  · rw [if_neg hg]

theorem cleanup_rm_patched_effect (c : Config) (w : World) (s1 : RunState)
    (hex : s1.fs.pathExists (patched_apk c) = true)
    (hok : w.removeOk s1.nRemove = true) :
    (cleanup_rm_patched c w s1).fs.isFile (patched_apk c) = false := by
  rw [cleanup_rm_patched, if_pos ⟨hex, patchedNeZipaligned c⟩, hok]
  dsimp only
  exact removeFile_gone s1.fs (patched_apk c)

end Interceptra

namespace Interceptra

/-! ### Claim theorems -/

/-- C1: for every detected platform version `v`, the signing phase of the
pipeline (`cut`, lines 244-251, embedded as `signAlignPhase`, which
`pipelineStages` invokes with the detected `compile_sdk`) branches exactly
at 30: when `v ≥ 30` it first aligns the intermediate archive and then
signs the aligned archive with apksigner; when `v < 30` it first signs the
intermediate archive with jarsigner and then aligns; and in both branches
the artifact delivered to the caller is the aligned archive
`<dir>/<basename>_patched_zipaligned.apk`. -/
theorem C1_signing_strategy (c : Config) (w : World) (v : Int) (s s1 : RunState)
    (fin : String) (h : signAlignPhase c w v s = Except.ok (s1, fin)) :
    fin = zipaligned_apk c ∧
    fin = joinPath (dirname c.apk)
      (splitextRoot (basename c.apk) ++ "_patched_zipaligned.apk") ∧
    (30 ≤ v → s1.trace = s.trace ++
      [Event.madeDirs (dirname (zipaligned_apk c)),
       Event.ranCommand (zipalignArgv c) 0,
       Event.ranCommand (apksignArgv c) 0]) ∧
    (v < 30 → s1.trace = s.trace ++
      [Event.ranCommand (jarsignArgv c) 0,
       Event.madeDirs (dirname (zipaligned_apk c)),
       Event.ranCommand (zipalignArgv c) 0]) := by
  have hfin : fin = zipaligned_apk c := (signAlignPhase_ok c w v s s1 fin h).2
  refine ⟨hfin, hfin, ?_, ?_⟩
  · intro hv
    rw [signAlignPhase, if_pos hv] at h
    rcases h1 : zipalign_apk c w s with pe | sa <;> rw [h1] at h <;> dsimp only at h
    · exact absurd h (by simp)
    · rcases h2 : apksign_apk c w sa with pe | sb <;> rw [h2] at h <;> dsimp only at h
      · exact absurd h (by simp)
      · simp only [Except.ok.injEq, Prod.mk.injEq] at h
        obtain ⟨hs, _⟩ := h
        subst hs
        rw [apksign_ok_trace c w sa _ h2, zipalign_ok_trace c w s sa h1]
        simp
  · intro hv
    rw [signAlignPhase, if_neg (by omega)] at h
    rcases h1 : jarsign_apk c w s with pe | sa <;> rw [h1] at h <;> dsimp only at h
    · exact absurd h (by simp)
    · rcases h2 : zipalign_apk c w sa with pe | sb <;> rw [h2] at h <;> dsimp only at h
      · exact absurd h (by simp)
      · simp only [Except.ok.injEq, Prod.mk.injEq] at h
        obtain ⟨hs, _⟩ := h
        subst hs
        rw [zipalign_ok_trace c w sa _ h2, jarsign_ok_trace c w s sa h1]
        simp

/-- Witness for C1 at versions 30 (modern boundary, inclusive) and 29
(legacy side), in a world where every tool succeeds. -/
theorem C1_signing_strategy_witness :
    (zipaligned_apk sampleCfg = joinPath (dirname sampleCfg.apk)
      (splitextRoot (basename sampleCfg.apk) ++ "_patched_zipaligned.apk")) ∧
    ((30 : Int) ≤ 30 → s30.trace = (stateOf fullFS).trace ++
      [Event.madeDirs (dirname (zipaligned_apk sampleCfg)),
       Event.ranCommand (zipalignArgv sampleCfg) 0,
       Event.ranCommand (apksignArgv sampleCfg) 0]) ∧
    ((29 : Int) < 30 → s29.trace = (stateOf fullFS).trace ++
      [Event.ranCommand (jarsignArgv sampleCfg) 0,
       Event.madeDirs (dirname (zipaligned_apk sampleCfg)),
       Event.ranCommand (zipalignArgv sampleCfg) 0]) := by
  have h30 := C1_signing_strategy sampleCfg okWorld 30 (stateOf fullFS) s30
    (zipaligned_apk sampleCfg) (by rfl)
  have h29 := C1_signing_strategy sampleCfg okWorld 29 (stateOf fullFS) s29
    (zipaligned_apk sampleCfg) (by rfl)
  exact ⟨h30.2.1, h30.2.2.1, h29.2.2.2⟩

/-- C2: the detect-version stage (`_check_compile_sdk_version`) sets
`compile_sdk` to the integer value of the platform-namespaced
compileSdkVersion attribute of the document's top-level element when that
attribute is present and parses as an integer, and to 30 when the
attribute is absent, unparsable, or any parsing error occurs (including a
missing manifest file); in every case it returns normally — this stage
never raises an error that fails the pipeline, and it changes nothing in
the run state but `compile_sdk`. -/
theorem C2_detect_version (c : Config) (s : RunState) :
    (∀ rootAttrs app val n, parsedManifest c s.fs = XmlDoc.doc rootAttrs app →
      lookupAttr rootAttrs compileSdkAttr = some val → pyInt val = some n →
      check_compile_sdk_version c s = Except.ok { s with compile_sdk := some n }) ∧
    (∀ rootAttrs app, parsedManifest c s.fs = XmlDoc.doc rootAttrs app →
      lookupAttr rootAttrs compileSdkAttr = none →
      check_compile_sdk_version c s = Except.ok { s with compile_sdk := some 30 }) ∧
    (∀ rootAttrs app val, parsedManifest c s.fs = XmlDoc.doc rootAttrs app →
      lookupAttr rootAttrs compileSdkAttr = some val → pyInt val = none →
      check_compile_sdk_version c s = Except.ok { s with compile_sdk := some 30 }) ∧
    (parsedManifest c s.fs = XmlDoc.parseError →
      check_compile_sdk_version c s = Except.ok { s with compile_sdk := some 30 }) ∧
    (∃ s1, check_compile_sdk_version c s = Except.ok s1) := by
  refine ⟨?_, ?_, ?_, ?_, ?_⟩
  · intro rootAttrs app val n hm hl hp
    rw [check_compile_sdk_version, hm]
    dsimp only
    rw [hl]
    dsimp only
    rw [hp]
  · intro rootAttrs app hm hl
    rw [check_compile_sdk_version, hm]
    dsimp only
    rw [hl]
  · intro rootAttrs app val hm hl hp
    rw [check_compile_sdk_version, hm]
    dsimp only
    rw [hl]
    dsimp only
    rw [hp]
  · intro hm
    rw [check_compile_sdk_version, hm]
  · rcases hm : parsedManifest c s.fs with _ | ⟨rootAttrs, app⟩
    · refine ⟨{ s with compile_sdk := some 30 }, ?_⟩
      rw [check_compile_sdk_version, hm]
    · rcases hl : lookupAttr rootAttrs compileSdkAttr with _ | v
      · refine ⟨{ s with compile_sdk := some 30 }, ?_⟩
        rw [check_compile_sdk_version, hm]
        dsimp only
        rw [hl]
      · rcases hp : pyInt v with _ | n
        · refine ⟨{ s with compile_sdk := some 30 }, ?_⟩
          rw [check_compile_sdk_version, hm]
          dsimp only
          rw [hl]
          dsimp only
          rw [hp]
        · refine ⟨{ s with compile_sdk := some n }, ?_⟩
          rw [check_compile_sdk_version, hm]
          dsimp only
          rw [hl]
          dsimp only
          rw [hp]

/-- Witness for C2: attribute "29" detected as 29; absent attribute,
non-numeric value "abc" and a missing/unparsable manifest all default
to 30. -/
theorem C2_detect_version_witness :
    check_compile_sdk_version sampleCfg (stateOf (manFS ("29"))) =
      Except.ok { stateOf (manFS ("29")) with compile_sdk := some 29 } ∧
    check_compile_sdk_version sampleCfg (stateOf manFSNone) =
      Except.ok { stateOf manFSNone with compile_sdk := some 30 } ∧
    check_compile_sdk_version sampleCfg (stateOf (manFS ("abc"))) =
      Except.ok { stateOf (manFS ("abc")) with compile_sdk := some 30 } ∧
    check_compile_sdk_version sampleCfg (stateOf emptyFS) =
      Except.ok { stateOf emptyFS with compile_sdk := some 30 } := by
  refine ⟨?_, ?_, ?_, ?_⟩
  · exact (C2_detect_version sampleCfg _).1 [(compileSdkAttr, "29")] (some []) "29" 29
      (by rfl) (by rfl) (by rfl)
  · exact (C2_detect_version sampleCfg _).2.1 [] (some []) (by rfl) (by rfl)
  · exact (C2_detect_version sampleCfg _).2.2.1 [(compileSdkAttr, "abc")] (some []) "abc"
      (by rfl) (by rfl) (by rfl)
  · exact (C2_detect_version sampleCfg _).2.2.2.1 (by rfl)

/-- C3: when the pipeline stops with a `CommandError` (an external tool
exiting non-zero under the default require-success mode), the failing
command is the very last recorded event — no later stage ran and the
failed command was never retried — every command before it had exited 0,
and the run is reported to the caller as overall failure. -/
theorem C3_nonzero_exit_aborts (c : Config) (w : World) (code : Int) (s1 : RunState)
    (h : pipelineStages c w (initState w) = Except.error (Err.commandError code, s1)) :
    ¬ code = 0 ∧
    (∃ pre argv, s1.trace = pre ++ [Event.ranCommand argv code] ∧ noFailCmd pre) ∧
    (cut c w).1 = false := by
  obtain ⟨h0, pre, argv, ht, hn⟩ :=
    pipelineStages_err c w (initState w) (Err.commandError code) s1 h
  refine ⟨h0, ⟨pre, argv, by simpa using ht, hn⟩, ?_⟩
  by_cases hf : w.fs0.isFile c.apk = true
  · rw [cut_of_err c w _ s1 hf h]
  · rw [cut_of_not_isfile c w (by simpa using hf)]

/-- Witness for C3: in `failWorld` the very first command (decompile)
exits 1 and the run fails with exactly that one command on record. -/
theorem C3_nonzero_exit_aborts_witness :
    ¬ (1 : Int) = 0 ∧
    (∃ pre argv, failedState.trace = pre ++ [Event.ranCommand argv 1] ∧ noFailCmd pre) ∧
    (cut sampleCfg failWorld).1 = false :=
  C3_nonzero_exit_aborts sampleCfg failWorld 1 failedState (by rfl)

/-- C4: a repack command that exits 0 without leaving the intermediate
archive on disk makes `_repackage_apk` raise (`missingOutput` on the
intermediate archive, the spec's `RepackageFailure`); likewise
`_zipalign_apk` raises `missingOutput` on the aligned archive
(`AlignmentFailure`) when the aligned archive is missing after a
successful alignment command; and every pipeline error is reported to the
caller as failure, not success. -/
theorem C4_output_verification (c : Config) (w : World) :
    (∀ s s1, run_command w (repackArgv c) s = Except.ok s1 →
      s1.fs.pathExists (patched_apk c) = false →
      repackage_apk c w s = Except.error (Err.missingOutput (patched_apk c), s1)) ∧
    (∀ s s1, run_command w (zipalignArgv c) (zipalignPre c s) = Except.ok s1 →
      s1.fs.pathExists (zipaligned_apk c) = false →
      zipalign_apk c w s = Except.error (Err.missingOutput (zipaligned_apk c), s1)) ∧
    (∀ e s1, pipelineStages c w (initState w) = Except.error (e, s1) →
      (cut c w).1 = false) := by
  refine ⟨?_, ?_, ?_⟩
  · intro s s1 hrc hex
    rw [repackage_apk, hrc]
    dsimp only
    rw [if_pos hex]
  · intro s s1 hrc hex
    rw [zipalign_apk, hrc]
    dsimp only
    rw [if_pos hex]
  · intro e s1 h
    by_cases hf : w.fs0.isFile c.apk = true
    · rw [cut_of_err c w e s1 hf h]
    · rw [cut_of_not_isfile c w (by simpa using hf)]

/-- Witness for C4: in `noOutWorld` the repack and align commands exit 0
but create nothing, so both stages fail with `missingOutput`; in
`failWorld` the erroring pipeline is reported as failure. -/
theorem C4_output_verification_witness :
    repackage_apk sampleCfg noOutWorld (stateOf emptyFS) =
      Except.error (Err.missingOutput (patched_apk sampleCfg), repackOkState) ∧
    zipalign_apk sampleCfg noOutWorld (stateOf emptyFS) =
      Except.error (Err.missingOutput (zipaligned_apk sampleCfg), zaOkState) ∧
    (cut sampleCfg failWorld).1 = false := by
  refine ⟨?_, ?_, ?_⟩
  · exact (C4_output_verification sampleCfg noOutWorld).1 (stateOf emptyFS) repackOkState
      (by rfl) (by rfl)
  · exact (C4_output_verification sampleCfg noOutWorld).2.1 (stateOf emptyFS) zaOkState
      (by rfl) (by rfl)
  · exact (C4_output_verification sampleCfg failWorld).2.2 (Err.commandError 1) failedState
      (by rfl)

end Interceptra

namespace Interceptra

/-- C5 (counterexample): the claim states that instantiating the
Interceptra object fails for every input path that does not exist or is
not a regular file.  It does not: `__init__` (lines 20-66) performs no
input-path check and has no failure path — `_check_dependencies` catches
its own exceptions and only prints warnings.  Construction on
`/tmp/missing.apk`, absent in `noOutWorld`, completes normally and
returns the fully-derived configuration; the missing-file check runs only
later, at the start of `cut` (lines 223-225), which returns `False`
without executing any stage. -/
theorem C5_construction_counterexample :
    noOutWorld.fs0.isFile missingCfg.apk = false ∧
    interceptraInit ("/tmp/missing.apk") false none false =
      { apk := "/tmp/missing.apk", verbose := false, keep_files := false,
        tools := defaultToolPaths } ∧
    cut missingCfg noOutWorld = (false, initState noOutWorld) ∧
    (cut missingCfg noOutWorld).2.trace = [] := by
  refine ⟨rfl, rfl, cut_of_not_isfile missingCfg noOutWorld (by rfl), ?_⟩
  rw [cut_of_not_isfile missingCfg noOutWorld (by rfl)]
  rfl

/-- C5 (amended): construction always succeeds; for an input path that is
not a regular file the failure surfaces when the pipeline runs — `cut`
returns `False` immediately with no stage executed (empty trace) — and the
CLI additionally rejects the missing input with exit status 1 before
construction. -/
theorem C5_missing_input (c : Config) (w : World) (a : CLI.CliArgs)
    (h : w.fs0.isFile c.apk = false) (ha : a.apk = c.apk) :
    cut c w = (false, initState w) ∧ (cut c w).2.trace = [] ∧
    CLI.mainExit (CLI.CliInvocation.parsed a) w = 1 := by
  refine ⟨cut_of_not_isfile c w h, ?_, ?_⟩
  · rw [cut_of_not_isfile c w h]
    rfl
  · simp only [CLI.mainExit]
    rw [if_pos (by rw [ha]; exact h)]

/-- Witness for the amended C5. -/
theorem C5_missing_input_witness :
    cut missingCfg noOutWorld = (false, initState noOutWorld) ∧
    (cut missingCfg noOutWorld).2.trace = [] ∧
    CLI.mainExit (CLI.CliInvocation.parsed CLI.missArgs) noOutWorld = 1 :=
  C5_missing_input missingCfg noOutWorld CLI.missArgs (by rfl) (by rfl)

/-- C6 (counterexample): the claim states the CLI exits with status 1 on
every failure, including argument errors.  In fact an argument error
(missing required `--apk`, unrecognized flag) makes
`argparse.ArgumentParser.parse_args` terminate the process with status 2
— standard argparse behaviour, reached in `handle_args` before `main`'s
try-block — so the exit status there is 2, not 1. -/
theorem C6_exit_code_counterexample :
    CLI.mainExit CLI.CliInvocation.badArgs noOutWorld = 2 ∧
    ¬ CLI.mainExit CLI.CliInvocation.badArgs noOutWorld = 1 := by
  exact ⟨rfl, by decide⟩

/-- C6 (amended): exit status 0 on success; 1 on a missing input file and
on pipeline failure; 2 (not 1) on argument errors. -/
theorem C6_exit_codes (inv : CLI.CliInvocation) (w : World) :
    (inv = CLI.CliInvocation.badArgs → CLI.mainExit inv w = 2) ∧
    (∀ a, inv = CLI.CliInvocation.parsed a → w.fs0.isFile a.apk = false →
      CLI.mainExit inv w = 1) ∧
    (∀ a, inv = CLI.CliInvocation.parsed a → w.fs0.isFile a.apk = true →
      ((cut (interceptraInit a.apk a.verbose a.tools a.keep_files) w).1 = true →
        CLI.mainExit inv w = 0) ∧
      ((cut (interceptraInit a.apk a.verbose a.tools a.keep_files) w).1 = false →
        CLI.mainExit inv w = 1)) := by
  refine ⟨?_, ?_, ?_⟩
  · intro h
    subst h
    rfl
  · intro a h hf
    subst h
    simp only [CLI.mainExit]
    rw [if_pos hf]
  · intro a h hf
    subst h
    constructor
    · intro hc
      simp only [CLI.mainExit]
      rw [if_neg (by rw [hf]; simp), if_pos hc]
    · intro hc
      simp only [CLI.mainExit]
      rw [if_neg (by rw [hf]; simp), if_neg (by rw [hc]; simp)]

/-- Witness for the amended C6: a bad argument vector exits 2, a missing
input exits 1, a fully successful run exits 0. -/
theorem C6_exit_codes_witness :
    CLI.mainExit CLI.CliInvocation.badArgs okWorld = 2 ∧
    CLI.mainExit (CLI.CliInvocation.parsed CLI.missArgs) noOutWorld = 1 ∧
    CLI.mainExit (CLI.CliInvocation.parsed CLI.okArgs) okWorld = 0 := by
  refine ⟨(C6_exit_codes CLI.CliInvocation.badArgs okWorld).1 rfl,
    (C6_exit_codes (CLI.CliInvocation.parsed CLI.missArgs) noOutWorld).2.1
      CLI.missArgs rfl (by rfl),
    ((C6_exit_codes (CLI.CliInvocation.parsed CLI.okArgs) okWorld).2.2
      CLI.okArgs rfl (by rfl)).1 (by rfl)⟩

/-- C7: the three working paths are computed deterministically at
construction from the bundle's absolute path alone — they coincide for any
two configurations over the same bundle path — and each of them is located
in the bundle's containing directory: its `dirname` is exactly the output
directory (`dirname` of the bundle path).  They live in the immutable
`Config`, which no stage function receives mutably (stages thread only a
`RunState`), so none of them changes during a run. -/
theorem C7_working_paths (c c2 : Config) :
    dirname (patched_apk c) = output_dir c ∧
    dirname (zipaligned_apk c) = output_dir c ∧
    dirname (extraction_dir c) = output_dir c ∧
    (c.apk = c2.apk → patched_apk c = patched_apk c2 ∧
      zipaligned_apk c = zipaligned_apk c2 ∧
      extraction_dir c = extraction_dir c2 ∧ output_dir c = output_dir c2) := by
  refine ⟨dirname_patched_apk c, dirname_zipaligned_apk c, dirname_extraction_dir c, ?_⟩
  intro h
  refine ⟨?_, ?_, ?_, ?_⟩ <;>
    simp [patched_apk, zipaligned_apk, extraction_dir, output_dir, file_name, h]

/-- Witness for C7: two configurations over the same bundle path but
different flags share all working paths. -/
theorem C7_working_paths_witness :
    patched_apk sampleCfg = patched_apk sampleCfg2 ∧
    zipaligned_apk sampleCfg = zipaligned_apk sampleCfg2 ∧
    extraction_dir sampleCfg = extraction_dir sampleCfg2 ∧
    output_dir sampleCfg = output_dir sampleCfg2 :=
  (C7_working_paths sampleCfg sampleCfg2).2.2.2 (by rfl)

/-- C8: before the unpack tool is invoked, an extraction directory left by
a prior run is recursively deleted: on a successful removal the decompile
stage is exactly the unpack command run from the state in which the
extraction tree (the directory and everything below it) is gone; if the
removal fails the stage aborts without invoking the unpack tool at all, so
the tool never merges into stale content. -/
theorem C8_stale_extraction (c : Config) (w : World) (s : RunState)
    (h : s.fs.pathExists (extraction_dir c) = true) :
    (w.rmtreeOk s.nRmtree = true →
      decompile_apk c w s = run_command w (decompileArgv c)
        { s with fs := s.fs.rmtree (extraction_dir c), nRmtree := s.nRmtree + 1,
                 trace := s.trace ++ [Event.removedTree (extraction_dir c) true] } ∧
      (s.fs.rmtree (extraction_dir c)).pathExists (extraction_dir c) = false ∧
      (∀ p, ((extraction_dir c ++ "/").data.isPrefixOf p.data) = true →
        (s.fs.rmtree (extraction_dir c)).isFile p = false ∧
        (s.fs.rmtree (extraction_dir c)).isDir p = false)) ∧
    (w.rmtreeOk s.nRmtree = false →
      decompile_apk c w s = Except.error (Err.rmtreeFailed,
        { s with nRmtree := s.nRmtree + 1,
                 trace := s.trace ++ [Event.removedTree (extraction_dir c) false] })) := by
  constructor
  · intro hok
    refine ⟨?_, rmtree_root_gone s.fs (extraction_dir c),
      fun p hp => rmtree_subtree_gone s.fs (extraction_dir c) p hp⟩
    rw [decompile_apk, if_pos h, hok]
    rfl
  · intro hok
    rw [decompile_apk, if_pos h, hok]
    rfl

/-- Witness for C8, in a world where everything exists and `rmtree`
succeeds. -/
theorem C8_stale_extraction_witness :
    decompile_apk sampleCfg okWorld (stateOf fullFS) =
      run_command okWorld (decompileArgv sampleCfg)
        { stateOf fullFS with
          fs := fullFS.rmtree (extraction_dir sampleCfg),
          nRmtree := 1,
          trace := [Event.removedTree (extraction_dir sampleCfg) true] } ∧
    (fullFS.rmtree (extraction_dir sampleCfg)).pathExists (extraction_dir sampleCfg)
      = false := by
  have hw := (C8_stale_extraction sampleCfg okWorld (stateOf fullFS) (by rfl)).1 (by rfl)
  exact ⟨hw.1, hw.2.1⟩

/-- C9: with retention disabled, a successful run ends as
`(True, cleanup of the verified final state)`, so removal failures (both
cleanup oracles are arbitrary) cannot change the success outcome; cleanup
leaves the final aligned artifact untouched, the intermediate archive
always differs from the final artifact, and when the removals succeed the
extraction directory and the intermediate archive are gone afterwards. -/
theorem C9_cleanup (c : Config) (w : World) :
    (∀ s, (cleanup_files c w s).fs.isFile (zipaligned_apk c) =
        s.fs.isFile (zipaligned_apk c) ∧
      (cleanup_files c w s).fs.isDir (zipaligned_apk c) =
        s.fs.isDir (zipaligned_apk c)) ∧
    (¬ patched_apk c = zipaligned_apk c) ∧
    (∀ s, s.fs.pathExists (extraction_dir c) = true → w.rmtreeOk s.nRmtree = true →
      (cleanup_files c w s).fs.pathExists (extraction_dir c) = false) ∧
    (∀ s, s.fs.pathExists (patched_apk c) = true → w.rmtreeOk s.nRmtree = true →
      w.removeOk s.nRemove = true →
      (cleanup_files c w s).fs.isFile (patched_apk c) = false) ∧
    (∀ s1 fin, w.fs0.isFile c.apk = true → c.keep_files = false →
      pipelineStages c w (initState w) = Except.ok (s1, fin) →
      s1.fs.pathExists fin = true →
      cut c w = (true, cleanup_files c w s1)) := by
  refine ⟨?_, patchedNeZipaligned c, ?_, ?_, ?_⟩
  · intro s
    have hne1 : ¬ zipaligned_apk c = extraction_dir c := zipalignedNeExt c
    have hne2 : ¬ zipaligned_apk c = patched_apk c :=
      fun hh => patchedNeZipaligned c hh.symm
    obtain ⟨hf1, hd1, _⟩ :=
      cleanup_rm_extraction_frame c w s (zipaligned_apk c) hne1 (extNotPreZipaligned c)
    constructor
    · rw [cleanup_files, cleanup_rm_patched_isFile_frame c w _ _ hne2, hf1]
    · rw [cleanup_files, cleanup_rm_patched_isDir, hd1]
  · intro s hex hok
    have heff := cleanup_rm_extraction_effect c w s hex hok
    have hne : ¬ extraction_dir c = patched_apk c := fun hh => patchedNeExt c hh.symm
    rw [cleanup_files, FS.pathExists,
      cleanup_rm_patched_isFile_frame c w _ _ hne, cleanup_rm_patched_isDir]
    rw [FS.pathExists] at heff
    exact heff
  · intro s hex hok1 hok2
    obtain ⟨hf1, hd1, hrem⟩ :=
      cleanup_rm_extraction_frame c w s (patched_apk c) (patchedNeExt c)
        (extNotPrePatched c)
    rw [cleanup_files]
    apply cleanup_rm_patched_effect
    · rw [FS.pathExists, hf1, hd1]
      rw [FS.pathExists] at hex
      exact hex
    · rw [hrem]
      exact hok2
  · intro s1 fin hf hkeep hps hex
    rw [cut_of_ok c w s1 fin hf hps, if_pos hex, if_pos hkeep]

/-- Witness for C9, over a fully successful run in `okWorld`. -/
theorem C9_cleanup_witness :
    (cleanup_files sampleCfg okWorld (stateOf fullFS)).fs.pathExists
      (extraction_dir sampleCfg) = false ∧
    (cleanup_files sampleCfg okWorld (stateOf fullFS)).fs.isFile
      (patched_apk sampleCfg) = false ∧
    (cleanup_files sampleCfg okWorld (stateOf fullFS)).fs.isFile
      (zipaligned_apk sampleCfg) =
      (stateOf fullFS).fs.isFile (zipaligned_apk sampleCfg) ∧
    cut sampleCfg okWorld = (true, cleanup_files sampleCfg okWorld okRunState) := by
  refine ⟨(C9_cleanup sampleCfg okWorld).2.2.1 (stateOf fullFS) (by rfl) (by rfl),
    (C9_cleanup sampleCfg okWorld).2.2.2.1 (stateOf fullFS) (by rfl) (by rfl) (by rfl),
    ((C9_cleanup sampleCfg okWorld).1 (stateOf fullFS)).1,
    (C9_cleanup sampleCfg okWorld).2.2.2.2 okRunState (zipaligned_apk sampleCfg)
      (by rfl) (by rfl) (by rfl) (by rfl)⟩

/-- C10: the public pipeline entry point is total at its interface — it
answers `True` exactly when the pre-flight file check passed, every stage
completed and the final artifact exists, and every stage error is caught
and mapped to the `False` outcome, never propagated. -/
theorem C10_cut_total (c : Config) (w : World) :
    ((cut c w).1 = true ↔ (w.fs0.isFile c.apk = true ∧
      ∃ s1 fin, pipelineStages c w (initState w) = Except.ok (s1, fin) ∧
        s1.fs.pathExists fin = true)) ∧
    (∀ e s1, pipelineStages c w (initState w) = Except.error (e, s1) →
      (cut c w).1 = false) := by
  constructor
  · constructor
    · intro h1
      by_cases hf : w.fs0.isFile c.apk = true
      · rcases hps : pipelineStages c w (initState w) with pe | ⟨s1, fin⟩
        · rcases pe with ⟨e, s1⟩
          rw [cut_of_err c w e s1 hf hps] at h1
          simp at h1
        · rw [cut_of_ok c w s1 fin hf hps] at h1
          by_cases hex : s1.fs.pathExists fin = true
          · exact ⟨hf, s1, fin, rfl, hex⟩
          · rw [if_neg hex] at h1
            simp at h1
      · rw [cut_of_not_isfile c w (by simpa using hf)] at h1
        simp at h1
    · rintro ⟨hf, s1, fin, hps, hex⟩
      rw [cut_of_ok c w s1 fin hf hps, if_pos hex]
  · intro e s1 h
    by_cases hf : w.fs0.isFile c.apk = true
    · rw [cut_of_err c w e s1 hf h]
    · rw [cut_of_not_isfile c w (by simpa using hf)]

/-- Witness for C10: verified success in `okWorld`, caught stage error in
`failWorld`. -/
theorem C10_cut_total_witness :
    (cut sampleCfg okWorld).1 = true ∧ (cut sampleCfg failWorld).1 = false := by
  refine ⟨(C10_cut_total sampleCfg okWorld).1.mpr
      ⟨by rfl, okRunState, zipaligned_apk sampleCfg, by rfl, by rfl⟩,
    (C10_cut_total sampleCfg failWorld).2 (Err.commandError 1) failedState (by rfl)⟩

end Interceptra
